import Mathlib

/-!
# Verification of the kaggletools Titanic feature engine

Shallow embedding of `src/kaggletools/titanic.py`: the `TicketCounter` and
`CabinCounter` leave-one-out rate computers and the `FamilyPredictor`
family-grouping / family-rate engine, together with proofs about the claims
of the specification.

Modelling conventions:
* a pandas `DataFrame` is a `List` of row records; the row's position in the
  list is its index (the source frames use the default `RangeIndex`);
* `NaN`-able columns become `Option` types (`None` = `NaN`);
* floats become `Rat` (every float is a rational; the source only ever
  compares them for equality and order against exactly representable
  constants);
* the `Sex` column is kept dynamically typed (`PyVal`) because the source
  compares it both against the string `"female"` and against the integer
  literal `1`; Python's `==` across types (and against `NaN`) is `False`;
* in-place column mutation becomes explicit state passing; `.iloc[0]` on a
  possibly-empty selection and the `NameError` on line 413 of the source
  (`data.Family` with `data` unbound) are modelled with `Except`.
-/

namespace Titanic

/-- A dynamically typed Python scalar, as needed for the `Sex` column. -/
inductive PyVal where
  | str : String → PyVal
  | int : Int → PyVal
  | nan : PyVal
deriving DecidableEq, Repr

/-- Python `==` on scalars: comparisons across types, and any comparison
involving `NaN`, evaluate to `False`. -/
def pyEq : PyVal → PyVal → Bool
  | .str a, .str b => a == b
  | .int a, .int b => a == b
  | _, _ => false

/-- Scalar comparison `x == np.NaN` from the source (lines 347 and 388):
in Python this is always `False`, whatever `x` is. -/
def eqNaNScalar (_sn : Option String) : Bool := false

/-- Elementwise pandas comparison of an optional-string column entry against
an optional-string scalar: `NaN` on either side compares `False`. -/
def optStrEq (a b : Option String) : Bool :=
  match a, b with
  | some x, some y => x == y
  | _, _ => false

/-- Elementwise pandas comparison of the float `Family` column against a
possibly-`NaN` scalar: `NaN` on either side compares `False`. -/
def famEq (a b : Option Nat) : Bool :=
  match a, b with
  | some x, some y => x == y
  | _, _ => false

/-- Elementwise pandas comparison of the float `Fare` column against a
possibly-`NaN` fare scalar: `NaN` on either side compares `False`. -/
def fareEq (a b : Option Rat) : Bool :=
  match a, b with
  | some x, some y => x == y
  | _, _ => false

/-!
## Generic update-at-one-position infrastructure

`setAt u l i` applies `u` to the element at position `i` of `l` (and is `l`
itself when `i` is out of range).  Instantiated with "overwrite the
`Survived` field" it models changing one row's outcome, which is what the
leave-one-out purity claim quantifies over.
-/

/-- Apply `u` to the element at position `i` (identity when out of range). -/
def setAt {α : Type} (u : α → α) : List α → Nat → List α
  | [], _ => []
  | x :: xs, 0 => u x :: xs
  | x :: xs, n + 1 => x :: setAt u xs n

theorem length_setAt {α : Type} (u : α → α) (l : List α) (i : Nat) :
    (setAt u l i).length = l.length := by
  induction l generalizing i with
  | nil => rfl
  | cons x xs ih => cases i <;> simp [setAt, ih]

theorem getElem?_setAt {α : Type} (u : α → α) (l : List α) (i j : Nat) :
    (setAt u l i)[j]? = if j = i then (l[j]?).map u else l[j]? := by
  induction l generalizing i j with
  | nil => simp [setAt]
  | cons x xs ih =>
    cases i with
    | zero =>
      cases j with
      | zero => simp [setAt]
      | succ m => simp [setAt]
    | succ n =>
      cases j with
      | zero => simp [setAt]
      | succ m =>
        have e1 : (setAt u (x :: xs) (n + 1))[m + 1]? = (setAt u xs n)[m]? := by
          simp [setAt]
        rw [e1, ih]
        by_cases h : m = n
        · rw [if_pos h, if_pos (by omega)]
          simp
        · rw [if_neg h, if_neg (by omega)]
          simp

theorem setAt_out_of_range {α : Type} (u : α → α) (l : List α) (i : Nat)
    (h : l.length ≤ i) : setAt u l i = l := by
  induction l generalizing i with
  | nil => rfl
  | cons x xs ih =>
    cases i with
    | zero => simp at h
    | succ n =>
      have h2 : xs.length ≤ n := by simpa using h
      simp [setAt, ih n h2]

/-- A filter whose predicate ignores the updated field keeps its length. -/
theorem filter_setAt_length {α : Type} (u : α → α) (p : α → Bool)
    (hp : ∀ x, p (u x) = p x) (l : List α) (i : Nat) :
    ((setAt u l i).filter p).length = (l.filter p).length := by
  induction l generalizing i with
  | nil => rfl
  | cons x xs ih =>
    cases i with
    | zero =>
      by_cases h : p x
      · simp [setAt, List.filter_cons, hp, h]
      · simp [setAt, List.filter_cons, hp, h]
    | succ n =>
      by_cases h : p x <;> simp [setAt, List.filter_cons, h, ih]

/-- The head of such a filter is unchanged up to any projection that also
ignores the updated field. -/
theorem filter_setAt_head_map {α β : Type} (u : α → α) (p : α → Bool)
    (g : α → β) (hp : ∀ x, p (u x) = p x) (hg : ∀ x, g (u x) = g x)
    (l : List α) (i : Nat) :
    (((setAt u l i).filter p).head?).map g = ((l.filter p).head?).map g := by
  induction l generalizing i with
  | nil => rfl
  | cons x xs ih =>
    cases i with
    | zero =>
      show (((u x :: xs).filter p).head?).map g = _
      rw [List.filter_cons, List.filter_cons, hp]
      by_cases h : p x
      · rw [if_pos h, if_pos h]
        simp [hg]
      · rw [if_neg h, if_neg h]
    | succ n =>
      show (((x :: setAt u xs n).filter p).head?).map g = _
      rw [List.filter_cons, List.filter_cons]
      by_cases h : p x
      · rw [if_pos h, if_pos h]
        simp
      · rw [if_neg h, if_neg h]
        exact ih n

/-- If the predicate rejects the row being modified (typically because it
excludes the row's own `PassengerId`), the filter is untouched. -/
theorem filter_setAt_eq {α : Type} (u : α → α) (p : α → Bool)
    (hp : ∀ x, p (u x) = p x) (l : List α) (i : Nat)
    (hip : ∀ r, l[i]? = some r → p r = false) :
    (setAt u l i).filter p = l.filter p := by
  induction l generalizing i with
  | nil => rfl
  | cons x xs ih =>
    cases i with
    | zero =>
      have hx : p x = false := hip x (by simp)
      simp [setAt, List.filter_cons, hp, hx]
    | succ n =>
      have hn : ∀ r, xs[n]? = some r → p r = false := by
        intro r hr; exact hip r (by simpa using hr)
      by_cases h : p x <;> simp [setAt, List.filter_cons, h, ih _ hn]

/-- Counting identity: updating one element changes a filter count by the
difference of the indicator of the predicate before and after the update. -/
theorem filter_setAt_length_count {α : Type} (u : α → α) (p : α → Bool)
    (l : List α) (i : Nat) (r : α) (h : l[i]? = some r) :
    ((setAt u l i).filter p).length + (if p r then 1 else 0)
      = (l.filter p).length + (if p (u r) then 1 else 0) := by
  induction l generalizing i with
  | nil => simp at h
  | cons x xs ih =>
    cases i with
    | zero =>
      have hx : x = r := by simpa using h
      subst hx
      show ((u x :: xs).filter p).length + _ = ((x :: xs).filter p).length + _
      rw [List.filter_cons, List.filter_cons]
      by_cases h1 : p (u x) <;> by_cases h2 : p x <;>
        simp [h1, h2]
    | succ n =>
      have hn : xs[n]? = some r := by simpa using h
      have H := ih n hn
      show ((x :: setAt u xs n).filter p).length + _
          = ((x :: xs).filter p).length + _
      rw [List.filter_cons, List.filter_cons]
      by_cases hx : p x
      · rw [if_pos hx, if_pos hx]
        simp only [List.length_cons]
        omega
      · rw [if_neg hx, if_neg hx]
        omega

/-- Mapping commutes with `setAt` when the mapped function intertwines the
two updates. -/
theorem map_setAt {α β : Type} (u : α → α) (u' : β → β) (f : α → β)
    (hf : ∀ x, f (u x) = u' (f x)) (l : List α) (i : Nat) :
    (setAt u l i).map f = setAt u' (l.map f) i := by
  induction l generalizing i with
  | nil => rfl
  | cons x xs ih => cases i <;> simp [setAt, hf, ih]

theorem setAt_set_ne {α : Type} (u : α → α) (l : List α) (i j : Nat) (x : α)
    (h : j ≠ i) : (setAt u l i).set j x = setAt u (l.set j x) i := by
  induction l generalizing i j with
  | nil => rfl
  | cons y ys ih =>
    cases i with
    | zero =>
      cases j with
      | zero => exact absurd rfl h
      | succ m => simp [setAt]
    | succ n =>
      cases j with
      | zero => simp [setAt]
      | succ m =>
        show y :: (setAt u ys n).set m x = y :: setAt u (ys.set m x) n
        rw [ih n m (by omega)]

theorem set_setAt_self {α : Type} (u : α → α) (l : List α) (i : Nat) (x : α) :
    (setAt u l i).set i x = l.set i x := by
  induction l generalizing i with
  | nil => rfl
  | cons y ys ih => cases i <;> simp [setAt, ih]

theorem setAt_set_self {α : Type} (u : α → α) (l : List α) (i : Nat) (x : α) :
    setAt u (l.set i x) i = l.set i (u x) := by
  induction l generalizing i with
  | nil => rfl
  | cons y ys ih => cases i <;> simp [setAt, ih]

/-!
## TicketCounter (`fill_ticket_rates`, lines 150-191)

A ticket row carries the columns the class reads.  `ticketPreRate` is the
`TicketRate` value written by the main loop (lines 164-186), `None` when the
loop leaves the cell `NaN`; `ticketRateFinal` adds the fallback fill of
lines 187-191.
-/

structure TRow where
  passengerId : Nat
  ticket : String
  pclass : Nat
  survived : Option Bool
deriving DecidableEq, Repr

/-- Number of rows of `l` known to have survived. -/
def tSurvYes (l : List TRow) : Nat :=
  (l.filter (fun q => q.survived == some true)).length

/-- Number of rows of `l` known to have died. -/
def tSurvNo (l : List TRow) : Nat :=
  (l.filter (fun q => q.survived == some false)).length

/-- The `TicketRate` the main loop of `fill_ticket_rates` (lines 164-186)
writes for the row `r`, before the fallback fill.
`simplified` / `fillAny` are the constructor flags `simplified` and
`fill_if_not_any_survived`. In simplified mode the source tests
`Survived.min()`/`.max()` over the other rows with the same ticket; since
`Survived` only holds `0`, `1`, `NaN`, `min == 1` means "no zero and at
least one one", etc. In continuous mode the source takes the per-ticket
survivor/death totals and subtracts the row's own outcome. -/
def ticketPreRateRow (d : List TRow) (simplified fillAny : Bool) (r : TRow) :
    Option Rat :=
  if simplified then
    let others := d.filter
      (fun q => q.ticket == r.ticket && q.passengerId != r.passengerId)
    if fillAny then
      if 0 < tSurvYes others then some 1
      else if 0 < tSurvNo others then some 0
      else none
    else
      if tSurvNo others == 0 && 0 < tSurvYes others then some 1
      else if tSurvYes others == 0 && 0 < tSurvNo others then some 0
      else none
  else
    let sAll := (d.filter
      (fun q => q.ticket == r.ticket && q.survived == some true)).length
    let dAll := (d.filter
      (fun q => q.ticket == r.ticket && q.survived == some false)).length
    let s := sAll - (if r.survived == some true then 1 else 0)
    let dd := dAll - (if r.survived == some false then 1 else 0)
    if s + dd == 0 then none
    else some ((s : Rat) / ((s : Rat) + (dd : Rat)))

/-- The pre-fallback `TicketRate` of the row at position `i` (`None` when
the loop leaves the cell `NaN`, e.g. out of range). -/
def ticketPreRate (d : List TRow) (simplified fillAny : Bool) (i : Nat) :
    Option Rat :=
  match d[i]? with
  | none => none
  | some r => ticketPreRateRow d simplified fillAny r

/-- Mean of the known `Survived` values of class `c` (the per-class filler of
line 191); `None` when the class has no known outcome. -/
def classMean (d : List TRow) (c : Nat) : Option Rat :=
  let known := d.filter (fun q => q.pclass == c && q.survived.isSome)
  if known.length == 0 then none
  else some ((tSurvYes known : Rat) / (known.length : Rat))

/-- The final `TicketRate` of row `i` after the fallback fill (lines
187-191): simplified mode fills `NaN` cells with `0.5`, continuous mode
fills them with the row's class mean. -/
def ticketRateFinal (d : List TRow) (simplified fillAny : Bool) (i : Nat) :
    Option Rat :=
  match d[i]? with
  | none => none
  | some r =>
    match ticketPreRate d simplified fillAny i with
    | some x => some x
    | none => if simplified then some (1 / 2) else classMean d r.pclass

/-- The three-row scenario of claim C6: one shared ticket, outcomes
survived / died / unknown. -/
def exT6 : List TRow :=
  [⟨1, "A1", 3, some true⟩, ⟨2, "A1", 3, some false⟩, ⟨3, "A1", 3, none⟩]

/-- C6: for a three-row table with identical `Ticket` and `Survived` values
`1`, `0`, missing, the continuous-mode `TicketCounter` assigns `TicketRate`
`0.0` to the survivor, `1.0` to the casualty and `0.5` to the row with
missing `Survived`. -/
theorem c6_ticket_concrete_rates :
    ticketRateFinal exT6 false false 0 = some 0 ∧
    ticketRateFinal exT6 false false 1 = some 1 ∧
    ticketRateFinal exT6 false false 2 = some (1 / 2) := by
  refine ⟨?_, ?_, ?_⟩ <;>
    simp +decide [ticketRateFinal, ticketPreRate, ticketPreRateRow, exT6,
      tSurvYes, tSurvNo, classMean]
  norm_num

/-!
## CabinCounter (`fill_cabin_rates`, lines 253-287)

Rows with a missing `Cabin` never appear in the `counts` dictionary, so the
main loop skips them (`continue` on line 270) and their rate stays `NaN`
until the filler fallback of line 287.
-/

structure CRow where
  passengerId : Nat
  cabin : Option String
  pclass : Nat
  survived : Option Bool
deriving DecidableEq, Repr

def cSurvYes (l : List CRow) : Nat :=
  (l.filter (fun q => q.survived == some true)).length

def cSurvNo (l : List CRow) : Nat :=
  (l.filter (fun q => q.survived == some false)).length

/-- The `CabinRate` the main loop of `fill_cabin_rates` (lines 268-286)
writes for the row `r`, before the filler fallback; `None` for rows with
missing cabin (their value is not a key of `counts`, line 269-270) and when
the loop leaves the cell `NaN`. -/
def cabinPreRateRow (d : List CRow) (simplified : Bool) (r : CRow) :
    Option Rat :=
  match r.cabin with
  | none => none
  | some _ =>
    if simplified then
      let others := d.filter
        (fun q => optStrEq q.cabin r.cabin && q.passengerId != r.passengerId)
      if cSurvNo others == 0 && 0 < cSurvYes others then some 1
      else if cSurvYes others == 0 && 0 < cSurvNo others then some 0
      else none
    else
      let sAll := (d.filter
        (fun q => optStrEq q.cabin r.cabin && q.survived == some true)).length
      let dAll := (d.filter
        (fun q => optStrEq q.cabin r.cabin && q.survived == some false)).length
      let s := sAll - (if r.survived == some true then 1 else 0)
      let dd := dAll - (if r.survived == some false then 1 else 0)
      if s + dd == 0 then none
      else some ((s : Rat) / ((s : Rat) + (dd : Rat)))

/-- The pre-fallback `CabinRate` of the row at position `i`. -/
def cabinPreRate (d : List CRow) (simplified : Bool) (i : Nat) : Option Rat :=
  match d[i]? with
  | none => none
  | some r => cabinPreRateRow d simplified r

/-- The final `CabinRate` after the filler fallback (line 287).  `filler`
models the `self.filler` series, indexed by row position. -/
def cabinRateFinal (d : List CRow) (filler : Nat → Option Rat)
    (simplified : Bool) (i : Nat) : Option Rat :=
  match cabinPreRate d simplified i with
  | some x => some x
  | none => filler i

/-!
## FamilyPredictor: the family grouping engine (`_fill_family_ids`)

A family group (one row of the `self.families` frame) carries the columns
set by `_new_family` (lines 315-320); `Id` always equals the group's
position in the frame.
-/

structure Row where
  passengerId : Nat
  pclass : Nat
  sex : PyVal
  embarked : String
  fare : Option Rat
  sibsp : Nat
  parch : Nat
  survived : Option Bool
  lastname : String
  secondaryLastname : Option String
  family : Option Nat
deriving DecidableEq, Repr

structure Family where
  pclass : Nat
  embarked : String
  lastname : String
  id : Nat
  size : Nat
deriving DecidableEq, Repr

/-- The grouping state: the passenger frame (`self.data`, of which only the
columns the family engine touches are modelled) and the family frame
(`self.families`). -/
structure FState where
  rows : List Row
  families : List Family
deriving DecidableEq, Repr

/-- `families.Lastname == second_name` elementwise: the group lastname is
never `NaN`, the scalar may be; `NaN` compares `False`. -/
def sndLastEq (l : String) (sn : Option String) : Bool :=
  match sn with
  | some s => l == s
  | none => false

/-- `FamilyPredictor._new_family` (lines 294-321): append a fresh group with
`Size = 0` whose `Id` is its position. -/
def newFamily (fams : List Family) (r : Row) : Nat × List Family :=
  let idx := fams.length
  (idx, fams ++ [⟨r.pclass, r.embarked, r.lastname, idx, 0⟩])

/-- `FamilyPredictor._find_family` (lines 323-353).  Note the faithful
reproduction of two quirks of the source: the scalar `NaN` test on line 347
is always `False`, and line 350 re-tests `len(exact)` (not
`len(secondary)`), so the `secondary` selection is computed but never
used. -/
def findFamily (fams : List Family) (r : Row) : Nat × List Family :=
  let matching := fams.filter
    (fun g => g.pclass == r.pclass && g.embarked == r.embarked)
  if matching.isEmpty then newFamily fams r
  else
    let exact := matching.filter (fun g => g.lastname == r.lastname)
    match exact.head? with
    | some g => (g.id, fams)
    | none =>
      if eqNaNScalar r.secondaryLastname then newFamily fams r
      else
        let secondary := matching.filter
          (fun g => sndLastEq g.lastname r.secondaryLastname)
        match secondary.isEmpty, exact.head? with
        | _, some g => (g.id, fams)
        | _, none => newFamily fams r

/-- `self.families.loc[self.families.Id == f, "Size"] += c` (lines 379 and
394): every group whose `Id` equals `fid` gets its size bumped by `c`. -/
def incSizeById (fams : List Family) (fid : Nat) (c : Nat) : List Family :=
  fams.map (fun g => if g.id == fid then {g with size := g.size + c} else g)

/-- `self.families.loc[f, "Size"] = 0` (line 396): zero the size of the
group at positional label `f`. -/
def zeroSizeAt (fams : List Family) (f : Nat) : List Family :=
  match fams[f]? with
  | some g => fams.set f {g with size := 0}
  | none => fams

/-- The rows currently assigned to family id `fid`
(`self.data.loc[self.data.Family == fid]`; a `NaN` `Family` never
matches). -/
def rowsInFamily (rows : List Row) (fid : Nat) : List Row :=
  rows.filter (fun r => r.family == some fid)

/-- One iteration of the first loop of `_fill_family_ids` (lines 373-379):
skip rows with `SibSp == 0 and Parch == 0`, otherwise find (or create) the
family, record its id in the row and bump the group size. -/
def assignStep (st : FState) (i : Nat) : FState :=
  match st.rows[i]? with
  | none => st
  | some r =>
    if r.sibsp == 0 && r.parch == 0 then st
    else
      let fr := findFamily st.families r
      { rows := st.rows.set i {r with family := some fr.1},
        families := incSizeById fr.2 fr.1 1 }

/-- The first loop of `_fill_family_ids` (lines 373-379). -/
def assignPass (st : FState) : FState :=
  (List.range st.rows.length).foldl assignStep st

/-- The sibling-based fallback merge (lines 398-414) for the group whose
lone member was found to have PassengerId `pid`, class `pclass`,
embarkation `emb` and secondary lastname `secondName`.  If the `Sex != 1`
gate is passed and any `sisters` row exists, line 413 evaluates the unbound
name `data` and the call raises `NameError`. -/
def siblingMerge (st : FState) (pid pclass : Nat) (emb : String)
    (secondName : Option String) : Except String FState :=
  match (st.rows.filter (fun r => r.passengerId == pid)).head? with
  | none => .error "IndexError"
  | some rp =>
    if rp.sibsp == 0 then .ok st
    else if !pyEq rp.sex (.int 1) then .ok st
    else
      let sisters := st.rows.filter (fun r =>
        optStrEq r.secondaryLastname secondName &&
        pyEq r.sex (.str "female") &&
        r.pclass == pclass && r.embarked == emb &&
        r.passengerId != pid)
      if 0 < sisters.length then .error "NameError"
      else .ok st

/-- The merge into the first group whose `Lastname` equals the lone
member's `SecondaryLastname` (the `for fam in fams.index: ...; break` loop,
lines 390-397): only the first matching group receives the rows; its size
(every group labelled with its id) grows by the singleton's row count, the
rows are relabelled, and the group at positional label `f` is zeroed.  If
no group matches, the state is unchanged. -/
def secondaryAbsorb (st : FState) (f fid : Nat) (secondName : Option String) :
    FState :=
  match (st.families.filter (fun g => sndLastEq g.lastname secondName)).head?
    with
  | none => st
  | some g =>
    ⟨st.rows.map (fun r =>
        if r.family == some fid then {r with family := some g.id} else r),
      zeroSizeAt
        (incSizeById st.families g.id (rowsInFamily st.rows fid).length) f⟩

/-- The `Size == 0` re-check of line 398 on the post-absorption state: if
the singleton group was zeroed by the absorption the iteration is over
(`continue`), otherwise the sibling fallback of lines 400-414 runs. -/
def sizeGate (st1 : FState) (f pid pclass : Nat) (emb : String)
    (sn : Option String) : Except String FState :=
  match st1.families[f]? with
  | none => .ok st1
  | some famF =>
    if famF.size == 0 then .ok st1
    else siblingMerge st1 pid pclass emb sn

/-- Lines 388-414 once the lone member `r0` of the size-1 group has been
read: the always-`False` `NaN` test, the secondary-lastname absorption, the
`Size == 0` re-check (line 398) and the sibling fallback. -/
def mergeBody (st : FState) (f fid : Nat) (r0 : Row) : Except String FState :=
  if eqNaNScalar r0.secondaryLastname then .ok st
  else sizeGate (secondaryAbsorb st f fid r0.secondaryLastname) f
    r0.passengerId r0.pclass r0.embarked r0.secondaryLastname

/-- One iteration of the singleton-merge pass (lines 380-414) for the group
at positional label `f`: skip unless its current size is `1`; read the lone
member (`.iloc[0]`, an `IndexError` if the selection is empty); then
`mergeBody`. -/
def mergeStep (st : FState) (f : Nat) : Except String FState :=
  match st.families[f]? with
  | none => .ok st
  | some fam0 =>
    if fam0.size != 1 then .ok st
    else
      match (rowsInFamily st.rows fam0.id).head? with
      | none => .error "IndexError"
      | some r0 => mergeBody st f fam0.id r0

/-- The singleton-merge pass (lines 380-414): iterate `mergeStep` over the
family-frame index. -/
def mergePass (st : FState) : Except String FState :=
  (List.range st.families.length).foldlM mergeStep st

/-- One iteration of the fare-based grouping loop (lines 364-371): rows
whose `Family` is already finite are skipped (the fresh id counter is not
advanced); otherwise every row with the same (`Fare`, `Lastname`) pair gets
the fresh id — a `NaN` fare matches no row at all, not even the row
itself — and the counter advances. -/
def fareStep (p : List Row × Nat) (i : Nat) : List Row × Nat :=
  match p.1[i]? with
  | none => p
  | some r =>
    if r.family.isSome then p
    else
      (p.1.map (fun q =>
        if fareEq q.fare r.fare && q.lastname == r.lastname then
          {q with family := some p.2}
        else q),
       p.2 + 1)

/-- Lines 360-361 of `_fill_family_ids`: an empty family frame and a
`Family` column reset to `NaN`. -/
def initState (d : List Row) : FState :=
  ⟨d.map (fun r => {r with family := none}), []⟩

/-- `FamilyPredictor._fill_family_ids` (lines 355-414).  The `Family`
column is reset to `NaN`, then either the fare-based grouping
(`use_fare=True`, lines 362-371, which leaves `self.families` empty) or the
class/port/lastname grouping followed by the singleton-merge pass. -/
def fillFamilyIds (d : List Row) (useFare : Bool) : Except String FState :=
  if useFare then
    .ok ⟨((List.range (initState d).rows.length).foldl fareStep
        ((initState d).rows, 0)).1, []⟩
  else
    mergePass (assignPass (initState d))

/-!
## FamilyPredictor: the rate computation (`fill_family_rates`, lines 494-524)
-/

def survYes (l : List Row) : Nat :=
  (l.filter (fun q => q.survived == some true)).length

def survNo (l : List Row) : Nat :=
  (l.filter (fun q => q.survived == some false)).length

/-- The `FamilyRate` written for row `i` by the main loop of
`fill_family_rates` (lines 502-521), before the fallback fills; `None` when
the cell is left (or set to) `NaN`.  The scalar test `Family == np.NaN` on
line 503 is always `False`; rows whose family has exactly one member are
skipped on line 507; a row with `NaN` family matches no row, so its
`others` selection is empty and its rate stays `NaN`. -/
def famPreRateRow (rows : List Row) (simplified fillAny : Bool) (r : Row) :
    Option Rat :=
  if (rows.filter (fun q => famEq q.family r.family)).length == 1 then none
  else
    let others := rows.filter (fun q =>
      famEq q.family r.family && q.passengerId != r.passengerId)
    if simplified then
      if fillAny then
        if 0 < survYes others then some 1
        else if 0 < survNo others then some 0
        else none
      else
        if survNo others == 0 && 0 < survYes others then some 1
        else if survYes others == 0 && 0 < survNo others then some 0
        else none
    else
      if survYes others + survNo others == 0 then none
      else some ((survYes others : Rat) /
        ((survYes others : Rat) + (survNo others : Rat)))

/-- The pre-fallback `FamilyRate` of the row at position `i`. -/
def famPreRate (rows : List Row) (simplified fillAny : Bool) (i : Nat) :
    Option Rat :=
  match rows[i]? with
  | none => none
  | some r => famPreRateRow rows simplified fillAny r

/-- The `FamilyRate` of row `i` after the regular fallback fill of line 522
(`NaN` cells take the filler value). -/
def familyRatePostFallback (st : FState) (filler : Nat → Option Rat)
    (simplified fillAny : Bool) (i : Nat) : Option Rat :=
  match famPreRate st.rows simplified fillAny i with
  | some x => some x
  | none => filler i

/-- The final `FamilyRate` of row `i`: after the regular fallback, the
re-fallback pass of lines 523-524 — run only when `simplified` and
`fill_if_not_any_survived` are both set — overwrites any value below `0.75`
with the filler value (a `NaN` cell is not `< 0.75`, so it stays). -/
def familyRateFinal (st : FState) (filler : Nat → Option Rat)
    (simplified fillAny : Bool) (i : Nat) : Option Rat :=
  let post := familyRatePostFallback st filler simplified fillAny i
  if simplified && fillAny then
    match post with
    | some x => if x < 3 / 4 then filler i else some x
    | none => none
  else post

/-!
## Concrete fixtures and small frame lemmas
-/

/-- Row fixture: class 1, embarked "S", string sex "male", no fare, no known
outcome, `Parch = 0`. -/
def mkRow (pid : Nat) (ln : String) (sn : Option String) (sib : Nat) : Row :=
  ⟨pid, 1, .str "male", "S", none, sib, 0, none, ln, sn, none⟩

theorem getElem?_incSizeById (fams : List Family) (fid c j : Nat) :
    (incSizeById fams fid c)[j]?
      = (fams[j]?).map
          (fun g => if g.id == fid then {g with size := g.size + c} else g) :=
  List.getElem?_map _ _ _

theorem zeroSizeAt_self (fams : List Family) (f : Nat) (g : Family)
    (h : fams[f]? = some g) :
    (zeroSizeAt fams f)[f]? = some {g with size := 0} := by
  unfold zeroSizeAt
  rw [h]
  have hlt : f < fams.length := (List.getElem?_eq_some_iff.mp h).choose
  rw [List.getElem?_set_self]
  simp [hlt]

theorem zeroSizeAt_ne (fams : List Family) (f j : Nat) (h : j ≠ f) :
    (zeroSizeAt fams f)[j]? = fams[j]? := by
  unfold zeroSizeAt
  cases hf : fams[f]? with
  | none => rfl
  | some g => exact List.getElem?_set_ne (fun hh => h hh.symm)

/-!
### Equation lemmas for the step functions
-/

theorem assignStep_none (st : FState) (n : Nat) (h : st.rows[n]? = none) :
    assignStep st n = st := by
  unfold assignStep
  rw [h]

theorem assignStep_some (st : FState) (n : Nat) (r : Row)
    (h : st.rows[n]? = some r) :
    assignStep st n
      = if (r.sibsp == 0 && r.parch == 0) = true then st
        else
          ⟨st.rows.set n {r with family := some (findFamily st.families r).1},
            incSizeById (findFamily st.families r).2
              (findFamily st.families r).1 1⟩ := by
  unfold assignStep
  rw [h]

theorem mergeStep_none (st : FState) (f : Nat) (h : st.families[f]? = none) :
    mergeStep st f = .ok st := by
  unfold mergeStep
  rw [h]

theorem mergeStep_some (st : FState) (f : Nat) (fam0 : Family)
    (hf : st.families[f]? = some fam0) :
    mergeStep st f
      = if (fam0.size != 1) = true then .ok st
        else
          match (rowsInFamily st.rows fam0.id).head? with
          | none => .error "IndexError"
          | some r0 => mergeBody st f fam0.id r0 := by
  unfold mergeStep
  rw [hf]

theorem mergeStep_skip (st : FState) (f : Nat) (fam0 : Family)
    (hf : st.families[f]? = some fam0) (hsz : (fam0.size != 1) = true) :
    mergeStep st f = .ok st := by
  rw [mergeStep_some st f fam0 hf, if_pos hsz]

theorem mergeStep_noRow (st : FState) (f : Nat) (fam0 : Family)
    (hf : st.families[f]? = some fam0) (hsz : fam0.size = 1)
    (h0 : (rowsInFamily st.rows fam0.id).head? = none) :
    mergeStep st f = .error "IndexError" := by
  rw [mergeStep_some st f fam0 hf, if_neg (by rw [hsz]; simp), h0]

theorem mergeStep_found (st : FState) (f : Nat) (fam0 : Family) (r0 : Row)
    (hf : st.families[f]? = some fam0) (hsz : fam0.size = 1)
    (h0 : (rowsInFamily st.rows fam0.id).head? = some r0) :
    mergeStep st f = mergeBody st f fam0.id r0 := by
  rw [mergeStep_some st f fam0 hf, if_neg (by rw [hsz]; simp), h0]

theorem secondaryAbsorb_none (st : FState) (f fid : Nat)
    (sn : Option String)
    (h : (st.families.filter (fun g => sndLastEq g.lastname sn)).head?
      = none) :
    secondaryAbsorb st f fid sn = st := by
  unfold secondaryAbsorb
  rw [h]

theorem secondaryAbsorb_some (st : FState) (f fid : Nat)
    (sn : Option String) (g : Family)
    (h : (st.families.filter (fun q => sndLastEq q.lastname sn)).head?
      = some g) :
    secondaryAbsorb st f fid sn
      = ⟨st.rows.map (fun r =>
            if r.family == some fid then {r with family := some g.id} else r),
          zeroSizeAt
            (incSizeById st.families g.id (rowsInFamily st.rows fid).length)
            f⟩ := by
  unfold secondaryAbsorb
  rw [h]

theorem mergeBody_eq (st : FState) (f fid : Nat) (r0 : Row) :
    mergeBody st f fid r0
      = sizeGate (secondaryAbsorb st f fid r0.secondaryLastname) f
          r0.passengerId r0.pclass r0.embarked r0.secondaryLastname := by
  unfold mergeBody
  rw [if_neg (by simp [eqNaNScalar])]

theorem sizeGate_none (st1 : FState) (f pid pclass : Nat) (emb : String)
    (sn : Option String) (h : st1.families[f]? = none) :
    sizeGate st1 f pid pclass emb sn = .ok st1 := by
  unfold sizeGate
  rw [h]

theorem sizeGate_some (st1 : FState) (f pid pclass : Nat) (emb : String)
    (sn : Option String) (famF : Family) (h : st1.families[f]? = some famF) :
    sizeGate st1 f pid pclass emb sn
      = if (famF.size == 0) = true then .ok st1
        else siblingMerge st1 pid pclass emb sn := by
  unfold sizeGate
  rw [h]

theorem siblingMerge_none (st : FState) (pid pclass : Nat) (emb : String)
    (sn : Option String)
    (h : (st.rows.filter (fun r => r.passengerId == pid)).head? = none) :
    siblingMerge st pid pclass emb sn = .error "IndexError" := by
  unfold siblingMerge
  rw [h]

theorem siblingMerge_some (st : FState) (pid pclass : Nat) (emb : String)
    (sn : Option String) (rp : Row)
    (h : (st.rows.filter (fun r => r.passengerId == pid)).head? = some rp) :
    siblingMerge st pid pclass emb sn
      = if (rp.sibsp == 0) = true then .ok st
        else if (!pyEq rp.sex (.int 1)) = true then .ok st
        else if 0 < (st.rows.filter (fun r =>
            optStrEq r.secondaryLastname sn && pyEq r.sex (.str "female") &&
            r.pclass == pclass && r.embarked == emb &&
            r.passengerId != pid)).length then .error "NameError"
        else .ok st := by
  unfold siblingMerge
  rw [h]

/-!
## C1: the secondary-lastname branch of `_find_family` is dead code
-/

/-- One existing group (class 1, port S, lastname "A"). -/
def c1fams : List Family := [⟨1, "S", "A", 0, 1⟩]

/-- A row matching that group's class and port, lastname "B", secondary
lastname "A". -/
def c1row : Row := mkRow 2 "B" (some "A") 1

/-- C1 (refuting evaluation): the row's `SecondaryLastname` equals the
lastname of matching group 0 — the second conjunct exhibits the match — yet
`_find_family` creates a brand-new group 1 instead of returning 0, because
line 350 of the source re-tests `len(exact)` instead of `len(secondary)`. -/
theorem c1_find_family_ignores_secondary_match :
    findFamily c1fams c1row = (1, c1fams ++ [⟨1, "S", "B", 1, 0⟩]) ∧
    (c1fams.filter
        (fun q => sndLastEq q.lastname c1row.secondaryLastname)).head?
      = some ⟨1, "S", "A", 0, 1⟩ := by
  exact ⟨by decide, by decide⟩

/-!
## C9: the singleton-merge pass is not idempotent
-/

/-- Three rows in the same class/port: "X" (secondary "Y"), "Y", "Z"
(secondary "X"); each has `SibSp = 1`. -/
def ex9 : List Row :=
  [mkRow 1 "X" (some "Y") 1, mkRow 2 "Y" none 1, mkRow 3 "Z" (some "X") 1]

/-- State after `_fill_family_ids` (grouping plus one merge pass) on `ex9`:
group 0 ("X") was absorbed into group 1 ("Y"), then group 2's singleton
("Z", secondary "X") was merged into the already-zeroed group 0, refilling
its size to 1. -/
def ex9St1 : FState :=
  ⟨[{mkRow 1 "X" (some "Y") 1 with family := some 1},
    {mkRow 2 "Y" none 1 with family := some 1},
    {mkRow 3 "Z" (some "X") 1 with family := some 0}],
   [⟨1, "S", "X", 0, 1⟩, ⟨1, "S", "Y", 1, 2⟩, ⟨1, "S", "Z", 2, 0⟩]⟩

/-- State after running the merge pass a second time: group 0, now of size
1 again, self-matches (its lone member's secondary lastname "X" equals its
own lastname) and is re-zeroed. -/
def ex9St2 : FState :=
  ⟨[{mkRow 1 "X" (some "Y") 1 with family := some 1},
    {mkRow 2 "Y" none 1 with family := some 1},
    {mkRow 3 "Z" (some "X") 1 with family := some 0}],
   [⟨1, "S", "X", 0, 0⟩, ⟨1, "S", "Y", 1, 2⟩, ⟨1, "S", "Z", 2, 0⟩]⟩

/-- C9 (refuting evaluation): running the singleton-merge pass a second
time on the state produced by `_fill_family_ids` changes group 0's `Size`
from 1 to 0 (the `Family` column happens to be unchanged), so two runs do
not produce the same final partition state as one run. -/
theorem c9_merge_pass_not_idempotent :
    fillFamilyIds ex9 false = .ok ex9St1 ∧
    mergePass ex9St1 = .ok ex9St2 ∧
    ex9St2.rows.map (fun r => r.family) = ex9St1.rows.map (fun r => r.family) ∧
    ex9St1.families.map (fun q => q.size) = [1, 2, 0] ∧
    ex9St2.families.map (fun q => q.size) = [0, 2, 0] ∧
    ex9St2 ≠ ex9St1 := by
  exact ⟨rfl, rfl, by decide, by decide, by decide, by decide⟩

/-!
## C4: singleton absorption by a secondary-lastname match
-/

/-- A single row whose secondary lastname equals its own lastname "W". -/
def ex4 : List Row := [mkRow 1 "W" (some "W") 1]

/-- C4 counterexample: on `ex4` the singleton group 0 (size 1 after the
grouping pass, second conjunct) is its own first secondary-lastname match;
after the merge pass its rows do carry the first matching group's id (0)
and its size is 0 — but that contradicts the claim's demand that the
matching group's size be increased by the singleton's pre-merge row count
(which would give 1 + 1 = 2, not 0). -/
theorem c4_counterexample_self_match :
    fillFamilyIds ex4 false
      = .ok ⟨[{mkRow 1 "W" (some "W") 1 with family := some 0}],
             [⟨1, "S", "W", 0, 0⟩]⟩ ∧
    (assignPass (initState ex4)).families = [⟨1, "S", "W", 0, 1⟩] ∧
    (0 : Nat) ≠ 1 + 1 := by
  exact ⟨rfl, by decide, by decide⟩

/-- C4 as amended: when the merge pass processes a group of current size 1
whose lone member has a secondary lastname matching some group's lastname,
and the **first** such matching group `g` is distinct from the singleton
itself, then the step reassigns every row of the singleton to `g.id`, adds
the singleton's row count to the size of every group labelled `g.id`, and
zeroes the singleton's size. -/
theorem c4_amended_merge_absorbs (st : FState) (f : Nat) (fam0 : Family)
    (r0 : Row) (g : Family)
    (hf : st.families[f]? = some fam0)
    (hsz : fam0.size = 1)
    (hr0 : (rowsInFamily st.rows fam0.id).head? = some r0)
    (hg : (st.families.filter
        (fun q => sndLastEq q.lastname r0.secondaryLastname)).head? = some g)
    (hne : g.id ≠ fam0.id) :
    mergeStep st f = .ok
      ⟨st.rows.map (fun r =>
          if r.family == some fam0.id then {r with family := some g.id}
          else r),
        zeroSizeAt
          (incSizeById st.families g.id (rowsInFamily st.rows fam0.id).length)
          f⟩ ∧
    (∀ j q, st.families[j]? = some q → j ≠ f → q.id = g.id →
        (zeroSizeAt
          (incSizeById st.families g.id (rowsInFamily st.rows fam0.id).length)
          f)[j]?
          = some {q with size :=
              q.size + (rowsInFamily st.rows fam0.id).length}) ∧
    (zeroSizeAt
        (incSizeById st.families g.id (rowsInFamily st.rows fam0.id).length)
        f)[f]? = some {fam0 with size := 0} := by
  have hid : (fam0.id == g.id) = false := by
    simp [hne.symm]
  have hinc : (incSizeById st.families g.id
      (rowsInFamily st.rows fam0.id).length)[f]? = some fam0 := by
    rw [getElem?_incSizeById, hf]
    exact congrArg some (if_neg (by simp [hid]))
  have hzero := zeroSizeAt_self _ f fam0 hinc
  have habs := secondaryAbsorb_some st f fam0.id r0.secondaryLastname g hg
  refine ⟨?_, ?_, hzero⟩
  · rw [mergeStep_found st f fam0 r0 hf hsz hr0, mergeBody_eq, habs]
    rw [sizeGate_some _ _ _ _ _ _ _ hzero]
    simp
  · intro j q hq hjf hqid
    rw [zeroSizeAt_ne _ _ _ hjf, getElem?_incSizeById, hq]
    simp [hqid]

/-- Concrete state for the C4 witness: row 1 ("B", secondary "A") alone in
group 0; group 1 has lastname "A". -/
def c4St : FState :=
  ⟨[{mkRow 1 "B" (some "A") 1 with family := some 0}],
   [⟨1, "S", "B", 0, 1⟩, ⟨1, "S", "A", 1, 5⟩]⟩

/-- Witness for the amended C4: on `c4St`, the merge step moves the lone
row to group 1 and sets the sizes to 0 and 6. -/
theorem c4_amended_merge_absorbs_witness :
    mergeStep c4St 0
      = .ok ⟨[{mkRow 1 "B" (some "A") 1 with family := some 1}],
             [⟨1, "S", "B", 0, 0⟩, ⟨1, "S", "A", 1, 6⟩]⟩ := by
  have h := (c4_amended_merge_absorbs c4St 0 ⟨1, "S", "B", 0, 1⟩
    ({mkRow 1 "B" (some "A") 1 with family := some 0}) ⟨1, "S", "A", 1, 5⟩
    rfl rfl rfl rfl (by decide)).1
  exact h.trans (by rfl)

/-!
## C2: the sibling-based fallback merge never fires on string-sexed data
-/

/-- C2: if every row's `Sex` is one of the strings `"male"`, `"female"`
(the documented data contract), the sibling-based fallback merge of lines
398-414 — gated on `Sex == 1`, a numeric sentinel — returns the state
unchanged: it neither touches any row's `Family` nor any group's `Size`
(and in particular never reaches the `NameError` of line 413). -/
theorem c2_sibling_merge_never_fires (st : FState) (pid pclass : Nat)
    (emb : String) (sn : Option String)
    (hsex : ∀ r ∈ st.rows,
      r.sex = PyVal.str "male" ∨ r.sex = PyVal.str "female")
    (hpid : st.rows.filter (fun r => r.passengerId == pid) ≠ []) :
    siblingMerge st pid pclass emb sn = .ok st := by
  unfold siblingMerge
  cases hh : (st.rows.filter (fun r => r.passengerId == pid)).head? with
  | none => exact absurd (List.head?_eq_none_iff.mp hh) hpid
  | some rp =>
    have hmem : rp ∈ st.rows :=
      List.mem_of_mem_filter (List.mem_of_mem_head? hh)
    have hfalse : pyEq rp.sex (.int 1) = false := by
      rcases hsex rp hmem with h | h <;> rw [h] <;> rfl
    simp [hfalse]

/-- Fixture for the C2 witness: one male row. -/
def c2St : FState := ⟨[mkRow 1 "P" none 1], []⟩

/-- Witness for C2 at a concrete state. -/
theorem c2_sibling_merge_never_fires_witness :
    siblingMerge c2St 1 1 "S" none = .ok c2St :=
  c2_sibling_merge_never_fires c2St 1 1 "S" none (by decide) (by decide)

/-!
## C5: family partition totality in the default mode
-/

theorem assignStep_rows_length (st : FState) (n : Nat) :
    (assignStep st n).rows.length = st.rows.length := by
  cases hr : st.rows[n]? with
  | none => rw [assignStep_none st n hr]
  | some r =>
    rw [assignStep_some st n r hr]
    by_cases hg : (r.sibsp == 0 && r.parch == 0) = true
    · rw [if_pos hg]
    · rw [if_neg hg]
      simp

theorem assignStep_keeps (st : FState) (n j : Nat) (h : j ≠ n) :
    (assignStep st n).rows[j]? = st.rows[j]? := by
  cases hr : st.rows[n]? with
  | none => rw [assignStep_none st n hr]
  | some r =>
    rw [assignStep_some st n r hr]
    by_cases hg : (r.sibsp == 0 && r.parch == 0) = true
    · rw [if_pos hg]
    · rw [if_neg hg]
      exact List.getElem?_set_ne (fun hh => h hh.symm)

/-- What the first grouping loop guarantees after the indices below `n`
have been processed: row lengths are stable, `SibSp`/`Parch` are untouched,
processed rows have a family exactly when their eligibility gate passed,
unprocessed rows still have none. -/
def AssignSpec (d : List Row) (n : Nat) (st : FState) : Prop :=
  st.rows.length = d.length ∧
  ∀ j r0, d[j]? = some r0 →
    ∃ r, st.rows[j]? = some r ∧ r.sibsp = r0.sibsp ∧ r.parch = r0.parch ∧
      (j < n → (r.family.isSome = true ↔ ¬(r0.sibsp = 0 ∧ r0.parch = 0))) ∧
      (n ≤ j → r.family = none)

theorem assign_fold_spec (d : List Row) (n : Nat) :
    AssignSpec d n ((List.range n).foldl assignStep (initState d)) := by
  induction n with
  | zero =>
    constructor
    · simp [initState]
    · intro j r0 h
      refine ⟨{r0 with family := none}, ?_, rfl, rfl, ?_, ?_⟩
      · simp [initState, List.getElem?_map, h]
      · intro hj
        exact absurd hj (by omega)
      · intro _
        rfl
  | succ n ih =>
    obtain ⟨ihlen, ihj⟩ := ih
    have hfold : (List.range (n + 1)).foldl assignStep (initState d)
        = assignStep ((List.range n).foldl assignStep (initState d)) n := by
      rw [List.range_succ, List.foldl_append]
      rfl
    constructor
    · rw [hfold, assignStep_rows_length]
      exact ihlen
    · intro j r0 h
      obtain ⟨r, hr, hs, hp, hlt, hge⟩ := ihj j r0 h
      by_cases hjn : j = n
      · subst hjn
        have hfam : r.family = none := hge (Nat.le_refl _)
        by_cases hgate : (r.sibsp == 0 && r.parch == 0) = true
        · have hstep :
              assignStep ((List.range j).foldl assignStep (initState d)) j
                = (List.range j).foldl assignStep (initState d) := by
            rw [assignStep_some _ _ _ hr, if_pos hgate]
          refine ⟨r, by rw [hfold, hstep]; exact hr, hs, hp, ?_, ?_⟩
          · intro _
            have hga : r0.sibsp = 0 ∧ r0.parch = 0 := by
              have hh := hgate
              simp only [Bool.and_eq_true, beq_iff_eq] at hh
              exact ⟨hs ▸ hh.1, hp ▸ hh.2⟩
            constructor
            · intro hsome
              rw [hfam] at hsome
              simp at hsome
            · intro hng
              exact absurd hga hng
          · intro hle
            exact absurd hle (by omega)
        · have hjlen : j <
              ((List.range j).foldl assignStep (initState d)).rows.length := by
            rw [ihlen]
            exact (List.getElem?_eq_some_iff.mp h).choose
          have hstep : (assignStep ((List.range j).foldl assignStep (initState d)) j).rows[j]? = some {r with family := some (findFamily ((List.range j).foldl assignStep (initState d)).families r).1} := by
            rw [assignStep_some _ _ _ hr, if_neg hgate]
            rw [List.getElem?_set_self]
            simp [hjlen]
          refine ⟨{r with family := some (findFamily ((List.range j).foldl assignStep (initState d)).families r).1}, by rw [hfold]; exact hstep, hs, hp, ?_, ?_⟩
          · intro _
            constructor
            · intro _
              intro hcon
              apply hgate
              simp only [Bool.and_eq_true, beq_iff_eq]
              exact ⟨hs.trans hcon.1, hp.trans hcon.2⟩
            · intro _
              rfl
          · intro hle
            exact absurd hle (by omega)
      · refine ⟨r,
          by rw [hfold, assignStep_keeps _ _ _ hjn]; exact hr, hs, hp, ?_, ?_⟩
        · intro hj
          exact hlt (by omega)
        · intro hj
          exact hge (by omega)

/-- Rows-shape relation preserved by every successful merge step: lengths,
`SibSp`, `Parch`, and the definedness of `Family` are unchanged. -/
def FamShape (st st' : FState) : Prop :=
  st'.rows.length = st.rows.length ∧
  ∀ (j : Nat) (r : Row), st.rows[j]? = some r →
    ∃ r' : Row, st'.rows[j]? = some r' ∧
      r'.sibsp = r.sibsp ∧ r'.parch = r.parch ∧
      r'.family.isSome = r.family.isSome

theorem famShape_refl (st : FState) : FamShape st st :=
  ⟨rfl, fun _ r h => ⟨r, h, rfl, rfl, rfl⟩⟩

theorem famShape_trans (a b c : FState) (h1 : FamShape a b)
    (h2 : FamShape b c) : FamShape a c := by
  refine ⟨h2.1.trans h1.1, ?_⟩
  intro j r hj
  obtain ⟨r', hr', e1, e2, e3⟩ := h1.2 j r hj
  obtain ⟨r'', hr'', f1, f2, f3⟩ := h2.2 j r' hr'
  exact ⟨r'', hr'', f1.trans e1, f2.trans e2, f3.trans e3⟩

theorem siblingMerge_ok (st : FState) (pid pclass : Nat) (emb : String)
    (sn : Option String) (st' : FState)
    (h : siblingMerge st pid pclass emb sn = .ok st') : st' = st := by
  cases hh : (st.rows.filter (fun r => r.passengerId == pid)).head? with
  | none =>
    rw [siblingMerge_none st pid pclass emb sn hh] at h
    simp at h
  | some rp =>
    rw [siblingMerge_some st pid pclass emb sn rp hh] at h
    by_cases h1 : (rp.sibsp == 0) = true
    · rw [if_pos h1] at h
      injection h with h2
      exact h2.symm
    · rw [if_neg h1] at h
      by_cases h2 : (!pyEq rp.sex (.int 1)) = true
      · rw [if_pos h2] at h
        injection h with h3
        exact h3.symm
      · rw [if_neg h2] at h
        by_cases h3 : 0 < (st.rows.filter (fun r =>
            optStrEq r.secondaryLastname sn && pyEq r.sex (.str "female") &&
            r.pclass == pclass && r.embarked == emb &&
            r.passengerId != pid)).length
        · rw [if_pos h3] at h
          simp at h
        · rw [if_neg h3] at h
          injection h with h4
          exact h4.symm

theorem sizeGate_ok (st1 : FState) (f pid pclass : Nat) (emb : String)
    (sn : Option String) (st' : FState)
    (h : sizeGate st1 f pid pclass emb sn = .ok st') : st' = st1 := by
  cases hf : st1.families[f]? with
  | none =>
    rw [sizeGate_none _ _ _ _ _ _ hf] at h
    injection h with h1
    exact h1.symm
  | some famF =>
    rw [sizeGate_some _ _ _ _ _ _ famF hf] at h
    by_cases hz : (famF.size == 0) = true
    · rw [if_pos hz] at h
      injection h with h1
      exact h1.symm
    · rw [if_neg hz] at h
      exact siblingMerge_ok _ _ _ _ _ _ h

theorem mergeBody_rows_shape (st : FState) (f fid : Nat) (r0 : Row)
    (st' : FState) (h : mergeBody st f fid r0 = .ok st') :
    st'.rows = st.rows ∨ ∃ gid, st'.rows
      = st.rows.map (fun r =>
          if r.family == some fid then {r with family := some gid} else r) := by
  have hshape : (secondaryAbsorb st f fid r0.secondaryLastname).rows = st.rows
      ∨ ∃ gid, (secondaryAbsorb st f fid r0.secondaryLastname).rows
          = st.rows.map (fun r =>
              if r.family == some fid then {r with family := some gid}
              else r) := by
    cases hg : (st.families.filter
        (fun q => sndLastEq q.lastname r0.secondaryLastname)).head? with
    | none =>
      rw [secondaryAbsorb_none st f fid _ hg]
      exact Or.inl rfl
    | some g =>
      rw [secondaryAbsorb_some st f fid _ g hg]
      exact Or.inr ⟨g.id, rfl⟩
  rw [mergeBody_eq] at h
  rw [sizeGate_ok _ _ _ _ _ _ _ h]
  exact hshape

theorem mergeStep_rows_shape (st : FState) (f : Nat) (st' : FState)
    (h : mergeStep st f = .ok st') :
    st'.rows = st.rows ∨ ∃ fid gid, st'.rows
      = st.rows.map (fun r =>
          if r.family == some fid then {r with family := some gid} else r) := by
  cases hf : st.families[f]? with
  | none =>
    rw [mergeStep_none st f hf] at h
    injection h with h1
    exact Or.inl (by rw [← h1])
  | some fam0 =>
    by_cases hsz : (fam0.size != 1) = true
    · rw [mergeStep_skip st f fam0 hf hsz] at h
      injection h with h1
      exact Or.inl (by rw [← h1])
    · have hsz1 : fam0.size = 1 := by
        have := hsz
        simp only [bne_iff_ne, ne_eq, Bool.not_eq_true] at this
        simpa using this
      cases h0 : (rowsInFamily st.rows fam0.id).head? with
      | none =>
        rw [mergeStep_noRow st f fam0 hf hsz1 h0] at h
        simp at h
      | some r0 =>
        rw [mergeStep_found st f fam0 r0 hf hsz1 h0] at h
        rcases mergeBody_rows_shape st f fam0.id r0 st' h with h1 | ⟨gid, h1⟩
        · exact Or.inl h1
        · exact Or.inr ⟨fam0.id, gid, h1⟩

theorem mergeStep_famShape (st : FState) (f : Nat) (st' : FState)
    (h : mergeStep st f = .ok st') : FamShape st st' := by
  rcases mergeStep_rows_shape st f st' h with he | ⟨fid, gid, he⟩
  · refine ⟨by rw [he], ?_⟩
    intro j r hj
    exact ⟨r, by rw [he]; exact hj, rfl, rfl, rfl⟩
  · refine ⟨by rw [he]; simp, ?_⟩
    intro j r hj
    refine ⟨if r.family == some fid then {r with family := some gid} else r,
      by rw [he, List.getElem?_map, hj]; rfl, ?_, ?_, ?_⟩
    · by_cases hc : (r.family == some fid) = true <;> simp [hc]
    · by_cases hc : (r.family == some fid) = true <;> simp [hc]
    · by_cases hc : (r.family == some fid) = true
      · rw [if_pos hc]
        have : r.family = some fid := by simpa using hc
        rw [this]
        rfl
      · rw [if_neg hc]

theorem foldlM_induction (R : FState → FState → Prop)
    (step : FState → Nat → Except String FState)
    (hstep : ∀ s a s', step s a = .ok s' → R s s')
    (hrefl : ∀ s, R s s)
    (htrans : ∀ a b c, R a b → R b c → R a c) :
    ∀ (l : List Nat) (s s'), l.foldlM step s = .ok s' → R s s' := by
  intro l
  induction l with
  | nil =>
    intro s s' h
    rw [List.foldlM_nil] at h
    injection h with h1
    exact h1 ▸ hrefl s
  | cons a l ih =>
    intro s s' h
    rw [List.foldlM_cons] at h
    cases hs : step s a with
    | error e =>
      rw [hs] at h
      have h' : (Except.error e : Except String FState) = Except.ok s' := h
      exact Except.noConfusion h'
    | ok m =>
      rw [hs] at h
      exact htrans _ _ _ (hstep s a m hs) (ih m s' h)

theorem mergePass_famShape (st st' : FState) (h : mergePass st = .ok st') :
    FamShape st st' :=
  foldlM_induction FamShape mergeStep mergeStep_famShape famShape_refl
    famShape_trans _ st st' h

/-- C5: after `_fill_family_ids` in the default mode, every row with
`SibSp + Parch > 0` has a non-missing `Family` and every row with
`SibSp == 0 and Parch == 0` has a missing one. -/
theorem c5_family_partition_totality (d : List Row) (st : FState)
    (h : fillFamilyIds d false = .ok st) :
    ∀ (j : Nat) (r0 r : Row), d[j]? = some r0 → st.rows[j]? = some r →
      (0 < r0.sibsp + r0.parch → r.family.isSome = true) ∧
      (r0.sibsp = 0 ∧ r0.parch = 0 → r.family = none) := by
  have hAP : assignPass (initState d)
      = (List.range d.length).foldl assignStep (initState d) := by
    unfold assignPass
    have hlen : (initState d).rows.length = d.length := by
      simp [initState]
    rw [hlen]
  have hA := assign_fold_spec d d.length
  have hmp : mergePass (assignPass (initState d)) = .ok st := by
    unfold fillFamilyIds at h
    simpa using h
  have hshape : FamShape (assignPass (initState d)) st :=
    mergePass_famShape _ _ hmp
  intro j r0 r hj hr
  obtain ⟨_, hspec⟩ := hA
  obtain ⟨rm, hrm, hs, hp, hlt, _⟩ := hspec j r0 hj
  have hjlt : j < d.length := by
    have := (List.getElem?_eq_some_iff.mp hj).choose
    exact this
  have hiff := hlt hjlt
  obtain ⟨_, hsh⟩ := hshape
  obtain ⟨r', hr', _, _, hfam'⟩ := hsh j rm (by rw [hAP]; exact hrm)
  have hrr : r = r' := by
    rw [hr] at hr'
    exact Option.some.inj hr'
  subst hrr
  constructor
  · intro hpos
    rw [hfam']
    exact hiff.mpr (fun hcon => by omega)
  · intro hzero
    have h1 : rm.family.isSome = false := by
      cases hrmf : rm.family.isSome
      · rfl
      · exact absurd hzero (hiff.mp hrmf)
    have h2 : r.family.isSome = false := by rw [hfam', h1]
    exact Option.not_isSome_iff_eq_none.mp (by rw [h2]; simp)

/-- Two-row fixture for the C5 witness: a `SibSp = 1` row and a lone row. -/
def ex5 : List Row := [mkRow 1 "P" none 1, mkRow 2 "Q" none 0]

/-- The grouping result on `ex5`. -/
def ex5Res : FState :=
  ⟨[{mkRow 1 "P" none 1 with family := some 0}, mkRow 2 "Q" none 0],
   [⟨1, "S", "P", 0, 1⟩]⟩

/-- Witness for C5 on `ex5`: the accompanied row got a family, the lone row
did not. -/
theorem c5_family_partition_totality_witness :
    ({mkRow 1 "P" none 1 with family := some 0} : Row).family.isSome = true ∧
    (mkRow 2 "Q" none 0).family = none := by
  constructor
  · exact (c5_family_partition_totality ex5 ex5Res rfl 0 (mkRow 1 "P" none 1)
      {mkRow 1 "P" none 1 with family := some 0} rfl rfl).1 (by decide)
  · exact (c5_family_partition_totality ex5 ex5Res rfl 1 (mkRow 2 "Q" none 0)
      (mkRow 2 "Q" none 0) rfl rfl).2 (by decide)

/-!
## C10: a missing fare yields no family in fare-based grouping
-/

/-- Invariant of the fare-grouping loop: row fares are never modified and a
row with a missing fare never acquires a family id (the mask
`data.Fare == f` cannot match it). -/
def FareSpec (d : List Row) (q : List Row × Nat) : Prop :=
  ∀ (j : Nat) (r : Row), q.1[j]? = some r →
    ∃ r0 : Row, d[j]? = some r0 ∧ r.fare = r0.fare ∧
      (r0.fare = none → r.family = none)

theorem fareStep_none (q : List Row × Nat) (i : Nat) (h : q.1[i]? = none) :
    fareStep q i = q := by
  unfold fareStep
  rw [h]

theorem fareStep_some (q : List Row × Nat) (i : Nat) (r : Row)
    (h : q.1[i]? = some r) :
    fareStep q i
      = if r.family.isSome = true then q
        else (q.1.map (fun x =>
            if fareEq x.fare r.fare && x.lastname == r.lastname then
              {x with family := some q.2}
            else x), q.2 + 1) := by
  unfold fareStep
  rw [h]

theorem fareStep_pres (d : List Row) (q : List Row × Nat) (a : Nat)
    (h : FareSpec d q) : FareSpec d (fareStep q a) := by
  cases hq : q.1[a]? with
  | none =>
    rw [fareStep_none q a hq]
    exact h
  | some r =>
    rw [fareStep_some q a r hq]
    by_cases hf : r.family.isSome = true
    · rw [if_pos hf]
      exact h
    · rw [if_neg hf]
      intro j rr hj
      have hj' : (q.1.map (fun x =>
          if fareEq x.fare r.fare && x.lastname == r.lastname then
            {x with family := some q.2}
          else x))[j]? = some rr := hj
      rw [List.getElem?_map] at hj'
      cases hq2 : q.1[j]? with
      | none =>
        rw [hq2] at hj'
        exact absurd hj' (by simp)
      | some rj =>
        rw [hq2] at hj'
        have hrr : (if fareEq rj.fare r.fare && rj.lastname == r.lastname then
            {rj with family := some q.2} else rj) = rr := Option.some.inj hj'
        obtain ⟨r0, h0, hfare, hnone⟩ := h j rj hq2
        refine ⟨r0, h0, ?_, ?_⟩
        · rw [← hrr]
          by_cases hc : (fareEq rj.fare r.fare
              && rj.lastname == r.lastname) = true
          · rw [if_pos hc]
            exact hfare
          · rw [if_neg hc]
            exact hfare
        · intro hr0
          have hrjf : rj.fare = none := hfare.trans hr0
          have hc : (fareEq rj.fare r.fare
              && rj.lastname == r.lastname) = false := by
            rw [hrjf]
            rfl
          rw [← hrr, if_neg (by simp [hc])]
          exact hnone hr0

theorem foldl_preserves (I : List Row × Nat → Prop)
    (step : List Row × Nat → Nat → List Row × Nat)
    (h : ∀ s a, I s → I (step s a)) (l : List Nat) (s : List Row × Nat)
    (hs : I s) : I (l.foldl step s) := by
  induction l generalizing s with
  | nil => exact hs
  | cons a l ih => exact ih (step s a) (h s a hs)

/-- C10: in fare-based grouping mode (`use_fare=True`), every row whose
`Fare` is missing ends the grouping pass with a missing `Family` id, because
the fare-equality mask matches no rows for a `NaN` fare. -/
theorem c10_missing_fare_no_family (d : List Row) (st : FState)
    (h : fillFamilyIds d true = .ok st) :
    ∀ (j : Nat) (r0 r : Row), d[j]? = some r0 → st.rows[j]? = some r →
      r0.fare = none → r.family = none := by
  have hinit : FareSpec d ((initState d).rows, 0) := by
    intro j r hj
    have hj' : (d.map (fun x => {x with family := none}))[j]? = some r := hj
    rw [List.getElem?_map] at hj'
    cases hd : d[j]? with
    | none =>
      rw [hd] at hj'
      exact absurd hj' (by simp)
    | some r0 =>
      rw [hd] at hj'
      have he := Option.some.inj hj'
      refine ⟨r0, rfl, ?_, ?_⟩
      · rw [← he]
      · intro _
        rw [← he]
  have hall := foldl_preserves (FareSpec d) fareStep
    (fun s a hs => fareStep_pres d s a hs)
    (List.range (initState d).rows.length) ((initState d).rows, 0) hinit
  have hst : Except.ok
      (⟨((List.range (initState d).rows.length).foldl fareStep
          ((initState d).rows, 0)).1, []⟩ : FState) = Except.ok st := h
  have hst2 := Option.some.inj (congrArg Except.toOption hst)
  intro j r0 r hj hr hf
  obtain ⟨r0', h0', hfare', hnone'⟩ := hall j r
    (by rw [← hst2] at hr; exact hr)
  have he : r0 = r0' := by
    rw [hj] at h0'
    exact Option.some.inj h0'
  exact hnone' (by rw [← he]; exact hf)

/-- One-row fixture for the C10 witness, with a missing fare. -/
def exF : List Row := [mkRow 4 "F" none 1]

/-- Witness for C10 on `exF`. -/
theorem c10_missing_fare_no_family_witness :
    (mkRow 4 "F" none 1).family = none :=
  c10_missing_fare_no_family exF ⟨[mkRow 4 "F" none 1], []⟩ rfl 0
    (mkRow 4 "F" none 1) (mkRow 4 "F" none 1) rfl rfl rfl

/-!
## C7 and C8: fallback completeness and the re-fallback pass
-/

theorem familyRateFinal_other (st : FState) (filler : Nat → Option Rat)
    (s a : Bool) (i : Nat) (hsa : (s && a) = false) :
    familyRateFinal st filler s a i
      = familyRatePostFallback st filler s a i := by
  unfold familyRateFinal
  rw [if_neg (by simp [hsa])]

theorem familyRateFinal_refallback (st : FState) (filler : Nat → Option Rat)
    (s a : Bool) (i : Nat) (hsa : (s && a) = true) :
    familyRateFinal st filler s a i
      = match familyRatePostFallback st filler s a i with
        | some x => if x < 3 / 4 then filler i else some x
        | none => none := by
  unfold familyRateFinal
  rw [if_pos hsa]

/-- C7: after each rate computation finishes, every row has a defined rate,
provided (ticket, continuous mode) every class mean is defined and (cabin,
family) the filler series has no missing value. -/
theorem c7_fallback_completeness :
    (∀ (d : List TRow) (simplified fillAny : Bool) (i : Nat) (r : TRow),
      d[i]? = some r →
      (simplified = false →
        ∀ q ∈ d, (classMean d q.pclass).isSome = true) →
      (ticketRateFinal d simplified fillAny i).isSome = true) ∧
    (∀ (d : List CRow) (filler : Nat → Option Rat) (simplified : Bool)
      (i : Nat),
      (∀ j, (filler j).isSome = true) →
      (cabinRateFinal d filler simplified i).isSome = true) ∧
    (∀ (st : FState) (filler : Nat → Option Rat) (simplified fillAny : Bool)
      (i : Nat),
      (∀ j, (filler j).isSome = true) →
      (familyRateFinal st filler simplified fillAny i).isSome = true) := by
  refine ⟨?_, ?_, ?_⟩
  · intro d simplified fillAny i r hi hcm
    have hmem : r ∈ d := by
      obtain ⟨hlt, he⟩ := List.getElem?_eq_some_iff.mp hi
      exact he ▸ List.getElem_mem hlt
    unfold ticketRateFinal
    rw [hi]
    cases hrate : ticketPreRate d simplified fillAny i with
    | some x => rfl
    | none =>
      cases simplified with
      | true => rfl
      | false =>
        have := hcm rfl r hmem
        simpa using this
  · intro d filler simplified i hfiller
    unfold cabinRateFinal
    cases hrate : cabinPreRate d simplified i with
    | some x => rfl
    | none => exact hfiller i
  · intro st filler simplified fillAny i hfiller
    have hpost : (familyRatePostFallback st filler simplified fillAny
        i).isSome = true := by
      unfold familyRatePostFallback
      cases hrate : famPreRate st.rows simplified fillAny i with
      | some x => rfl
      | none => exact hfiller i
    by_cases hsa : (simplified && fillAny) = true
    · rw [familyRateFinal_refallback st filler _ _ i hsa]
      cases hp : familyRatePostFallback st filler simplified fillAny i with
      | none =>
        rw [hp] at hpost
        exact absurd hpost (by simp)
      | some x =>
        show (if x < 3 / 4 then filler i else some x).isSome = true
        by_cases hx : x < 3 / 4
        · rw [if_pos hx]
          exact hfiller i
        · rw [if_neg hx]
          rfl
    · have hsa2 : (simplified && fillAny) = false := by
        cases hb : (simplified && fillAny)
        · rfl
        · exact absurd hb hsa
      rw [familyRateFinal_other st filler _ _ i hsa2]
      exact hpost

/-- Witness for C7 at concrete inputs. -/
theorem c7_fallback_completeness_witness :
    (ticketRateFinal exT6 false false 0).isSome = true ∧
    (cabinRateFinal [] (fun _ => some (1 / 2)) false 0).isSome = true ∧
    (familyRateFinal ⟨[], []⟩ (fun _ => some (1 / 2)) false false
      0).isSome = true := by
  refine ⟨?_, ?_, ?_⟩
  · exact c7_fallback_completeness.1 exT6 false false 0 ⟨1, "A1", 3, some true⟩
      rfl (by decide)
  · exact c7_fallback_completeness.2.1 [] (fun _ => some (1 / 2)) false 0
      (fun _ => rfl)
  · exact c7_fallback_completeness.2.2 ⟨[], []⟩ (fun _ => some (1 / 2)) false
      false 0 (fun _ => rfl)

/-- C8: exactly in the `simplified=True, fill_if_not_any_survived=True`
configuration, the re-fallback pass overwrites any post-fallback rate below
`0.75` with the filler value, leaves rates at least `0.75` unchanged, and in
every other configuration the final rate is the post-fallback rate. -/
theorem c8_refallback_pass (st : FState) (filler : Nat → Option Rat)
    (i : Nat) (x : Rat)
    (hpost : familyRatePostFallback st filler true true i = some x) :
    (x < 3 / 4 → familyRateFinal st filler true true i = filler i) ∧
    (¬ x < 3 / 4 → familyRateFinal st filler true true i = some x) ∧
    (∀ s a : Bool, (s && a) = false →
      familyRateFinal st filler s a i
        = familyRatePostFallback st filler s a i) := by
  refine ⟨?_, ?_, ?_⟩
  · intro hx
    rw [familyRateFinal_refallback st filler true true i rfl, hpost]
    show (if x < 3 / 4 then filler i else some x) = filler i
    rw [if_pos hx]
  · intro hx
    rw [familyRateFinal_refallback st filler true true i rfl, hpost]
    show (if x < 3 / 4 then filler i else some x) = some x
    rw [if_neg hx]
  · intro s a hsa
    exact familyRateFinal_other st filler s a i hsa

/-- Witness for C8: an empty frame with constant filler `0`; the filled
rate `0` is below `0.75` and is overwritten by the filler again. -/
theorem c8_refallback_pass_witness :
    familyRateFinal ⟨[], []⟩ (fun _ => some 0) true true 0 = some 0 :=
  (c8_refallback_pass ⟨[], []⟩ (fun _ => some 0) 0 0 rfl).1 (by norm_num)

/-!
## C3: leave-one-out purity

`tSet`/`cSet`/`rSet` overwrite the `Survived` field of one row; composed
with `setAt` they model changing the `Survived` value of the row at one
position of the frame.  The claim is that this never changes the row's own
pre-fallback rate (and, for the family predictor, does not affect the
grouping at all).
-/

def tSet (v : Option Bool) (r : TRow) : TRow := {r with survived := v}

@[simp] theorem tSet_passengerId (v : Option Bool) (r : TRow) :
    (tSet v r).passengerId = r.passengerId := rfl

@[simp] theorem tSet_ticket (v : Option Bool) (r : TRow) :
    (tSet v r).ticket = r.ticket := rfl

@[simp] theorem tSet_pclass (v : Option Bool) (r : TRow) :
    (tSet v r).pclass = r.pclass := rfl

@[simp] theorem tSet_survived (v : Option Bool) (r : TRow) :
    (tSet v r).survived = v := rfl

def cSet (v : Option Bool) (r : CRow) : CRow := {r with survived := v}

@[simp] theorem cSet_passengerId (v : Option Bool) (r : CRow) :
    (cSet v r).passengerId = r.passengerId := rfl

@[simp] theorem cSet_cabin (v : Option Bool) (r : CRow) :
    (cSet v r).cabin = r.cabin := rfl

@[simp] theorem cSet_pclass (v : Option Bool) (r : CRow) :
    (cSet v r).pclass = r.pclass := rfl

@[simp] theorem cSet_survived (v : Option Bool) (r : CRow) :
    (cSet v r).survived = v := rfl

def rSet (v : Option Bool) (r : Row) : Row := {r with survived := v}

@[simp] theorem rSet_passengerId (v : Option Bool) (r : Row) :
    (rSet v r).passengerId = r.passengerId := rfl

@[simp] theorem rSet_pclass (v : Option Bool) (r : Row) :
    (rSet v r).pclass = r.pclass := rfl

@[simp] theorem rSet_sex (v : Option Bool) (r : Row) :
    (rSet v r).sex = r.sex := rfl

@[simp] theorem rSet_embarked (v : Option Bool) (r : Row) :
    (rSet v r).embarked = r.embarked := rfl

@[simp] theorem rSet_fare (v : Option Bool) (r : Row) :
    (rSet v r).fare = r.fare := rfl

@[simp] theorem rSet_sibsp (v : Option Bool) (r : Row) :
    (rSet v r).sibsp = r.sibsp := rfl

@[simp] theorem rSet_parch (v : Option Bool) (r : Row) :
    (rSet v r).parch = r.parch := rfl

@[simp] theorem rSet_lastname (v : Option Bool) (r : Row) :
    (rSet v r).lastname = r.lastname := rfl

@[simp] theorem rSet_secondaryLastname (v : Option Bool) (r : Row) :
    (rSet v r).secondaryLastname = r.secondaryLastname := rfl

@[simp] theorem rSet_family (v : Option Bool) (r : Row) :
    (rSet v r).family = r.family := rfl

@[simp] theorem rSet_survived (v : Option Bool) (r : Row) :
    (rSet v r).survived = v := rfl

/-- Overwrite the `Survived` value of the ticket row at position `i`. -/
def setSurvT (d : List TRow) (i : Nat) (v : Option Bool) : List TRow :=
  setAt (tSet v) d i

/-- Overwrite the `Survived` value of the cabin row at position `i`. -/
def setSurvC (d : List CRow) (i : Nat) (v : Option Bool) : List CRow :=
  setAt (cSet v) d i

/-- Overwrite the `Survived` value of the passenger row at position `i`. -/
def setSurvR (d : List Row) (i : Nat) (v : Option Bool) : List Row :=
  setAt (rSet v) d i

def uniquePidsT (d : List TRow) : Prop :=
  (d.map (fun r => r.passengerId)).Nodup

def uniquePidsC (d : List CRow) : Prop :=
  (d.map (fun r => r.passengerId)).Nodup

def uniquePidsR (d : List Row) : Prop :=
  (d.map (fun r => r.passengerId)).Nodup

theorem ticketPreRate_none (d : List TRow) (s a : Bool) (i : Nat)
    (h : d[i]? = none) : ticketPreRate d s a i = none := by
  unfold ticketPreRate
  rw [h]

theorem ticketPreRate_some (d : List TRow) (s a : Bool) (i : Nat) (r : TRow)
    (h : d[i]? = some r) :
    ticketPreRate d s a i = ticketPreRateRow d s a r := by
  unfold ticketPreRate
  rw [h]

theorem cabinPreRate_none (d : List CRow) (s : Bool) (i : Nat)
    (h : d[i]? = none) : cabinPreRate d s i = none := by
  unfold cabinPreRate
  rw [h]

theorem cabinPreRate_some (d : List CRow) (s : Bool) (i : Nat) (r : CRow)
    (h : d[i]? = some r) : cabinPreRate d s i = cabinPreRateRow d s r := by
  unfold cabinPreRate
  rw [h]

theorem famPreRate_none (rows : List Row) (s a : Bool) (i : Nat)
    (h : rows[i]? = none) : famPreRate rows s a i = none := by
  unfold famPreRate
  rw [h]

theorem famPreRate_some (rows : List Row) (s a : Bool) (i : Nat) (r : Row)
    (h : rows[i]? = some r) :
    famPreRate rows s a i = famPreRateRow rows s a r := by
  unfold famPreRate
  rw [h]

/-- The pre-fallback `TicketRate` of a row is unchanged when its own
`Survived` value is overwritten: the simplified modes read only the other
rows with the same ticket, and the continuous mode subtracts the row's own
outcome from the per-ticket totals, which exactly compensates. -/
theorem ticketPreRateRow_eq (d : List TRow) (s a : Bool) (i : Nat)
    (v : Option Bool) (r : TRow) (hi : d[i]? = some r) :
    ticketPreRateRow (setAt (tSet v) d i) s a (tSet v r)
      = ticketPreRateRow d s a r := by
  unfold ticketPreRateRow
  simp only [tSet_ticket, tSet_passengerId, tSet_survived]
  have hoth : (setAt (tSet v) d i).filter
      (fun q => q.ticket == r.ticket && q.passengerId != r.passengerId)
      = d.filter
        (fun q => q.ticket == r.ticket && q.passengerId != r.passengerId) := by
    refine filter_setAt_eq (tSet v)
      (fun q => q.ticket == r.ticket && q.passengerId != r.passengerId)
      (fun x => rfl) d i ?_
    intro q hq
    rw [hi] at hq
    have hqr : r = q := Option.some.inj hq
    rw [← hqr]
    simp
  have H1 := filter_setAt_length_count (tSet v)
    (fun q : TRow => q.ticket == r.ticket && q.survived == some true) d i r hi
  have H2 := filter_setAt_length_count (tSet v)
    (fun q : TRow => q.ticket == r.ticket && q.survived == some false) d i r hi
  simp only [tSet_ticket, tSet_survived, beq_self_eq_true, Bool.true_and]
    at H1 H2
  have e1 : ((setAt (tSet v) d i).filter
        (fun q : TRow => q.ticket == r.ticket
          && q.survived == some true)).length
        - (if (v == some true) = true then 1 else 0)
      = (d.filter (fun q : TRow => q.ticket == r.ticket
          && q.survived == some true)).length
        - (if (r.survived == some true) = true then 1 else 0) := by
    omega
  have e2 : ((setAt (tSet v) d i).filter
        (fun q : TRow => q.ticket == r.ticket
          && q.survived == some false)).length
        - (if (v == some false) = true then 1 else 0)
      = (d.filter (fun q : TRow => q.ticket == r.ticket
          && q.survived == some false)).length
        - (if (r.survived == some false) = true then 1 else 0) := by
    omega
  simp only [hoth, e1, e2]

/-- C3, ticket component: the pre-fallback `TicketRate` of row `i` is
unchanged in every mode when row `i`'s own `Survived` value changes. -/
theorem ticketPreRate_setSurv (d : List TRow) (s a : Bool) (i : Nat)
    (v : Option Bool) :
    ticketPreRate (setSurvT d i v) s a i = ticketPreRate d s a i := by
  unfold setSurvT
  cases hi : d[i]? with
  | none =>
    have hi2 : (setAt (tSet v) d i)[i]? = none := by
      rw [getElem?_setAt]
      simp [hi]
    rw [ticketPreRate_none _ _ _ _ hi2, ticketPreRate_none _ _ _ _ hi]
  | some r =>
    have hi2 : (setAt (tSet v) d i)[i]? = some (tSet v r) := by
      rw [getElem?_setAt]
      simp [hi]
    rw [ticketPreRate_some _ _ _ _ _ hi2, ticketPreRate_some _ _ _ _ _ hi]
    exact ticketPreRateRow_eq d s a i v r hi

/-- The pre-fallback `CabinRate` of a row is unchanged when its own
`Survived` value is overwritten. -/
theorem cabinPreRateRow_noCabin (d : List CRow) (s : Bool) (r : CRow)
    (h : r.cabin = none) : cabinPreRateRow d s r = none := by
  unfold cabinPreRateRow
  rw [h]

theorem cabinPreRateRow_someCabin (d : List CRow) (s : Bool) (r : CRow)
    (cab : String) (h : r.cabin = some cab) :
    cabinPreRateRow d s r
      = if s then
          let others := d.filter (fun q => optStrEq q.cabin (some cab)
            && q.passengerId != r.passengerId)
          if cSurvNo others == 0 && 0 < cSurvYes others then some 1
          else if cSurvYes others == 0 && 0 < cSurvNo others then some 0
          else none
        else
          let sAll := (d.filter (fun q => optStrEq q.cabin (some cab)
            && q.survived == some true)).length
          let dAll := (d.filter (fun q => optStrEq q.cabin (some cab)
            && q.survived == some false)).length
          let s2 := sAll - (if r.survived == some true then 1 else 0)
          let dd := dAll - (if r.survived == some false then 1 else 0)
          if s2 + dd == 0 then none
          else some ((s2 : Rat) / ((s2 : Rat) + (dd : Rat))) := by
  unfold cabinPreRateRow
  rw [h]

theorem cabinPreRateRow_eq (d : List CRow) (s : Bool) (i : Nat)
    (v : Option Bool) (r : CRow) (hi : d[i]? = some r) :
    cabinPreRateRow (setAt (cSet v) d i) s (cSet v r)
      = cabinPreRateRow d s r := by
  cases hc : r.cabin with
  | none =>
    rw [cabinPreRateRow_noCabin _ _ _ (by simp [hc]),
      cabinPreRateRow_noCabin _ _ _ hc]
  | some cab =>
    rw [cabinPreRateRow_someCabin (setAt (cSet v) d i) s (cSet v r) cab
      (by simp [hc]), cabinPreRateRow_someCabin d s r cab hc]
    simp only [cSet_passengerId, cSet_survived]
    have hA : optStrEq (some cab) (some cab) = true := by
      simp [optStrEq]
    have hoth : (setAt (cSet v) d i).filter
        (fun q => optStrEq q.cabin (some cab)
          && q.passengerId != r.passengerId)
        = d.filter (fun q => optStrEq q.cabin (some cab)
          && q.passengerId != r.passengerId) := by
      refine filter_setAt_eq (cSet v)
        (fun q => optStrEq q.cabin (some cab)
          && q.passengerId != r.passengerId)
        (fun x => rfl) d i ?_
      intro q hq
      rw [hi] at hq
      have hqr : r = q := Option.some.inj hq
      rw [← hqr]
      simp
    have H1 := filter_setAt_length_count (cSet v)
      (fun q : CRow => optStrEq q.cabin (some cab)
        && q.survived == some true) d i r hi
    have H2 := filter_setAt_length_count (cSet v)
      (fun q : CRow => optStrEq q.cabin (some cab)
        && q.survived == some false) d i r hi
    simp only [cSet_cabin, cSet_survived, hc, hA, Bool.true_and] at H1 H2
    have e1 : ((setAt (cSet v) d i).filter
          (fun q : CRow => optStrEq q.cabin (some cab)
            && q.survived == some true)).length
          - (if (v == some true) = true then 1 else 0)
        = (d.filter (fun q : CRow => optStrEq q.cabin (some cab)
            && q.survived == some true)).length
          - (if (r.survived == some true) = true then 1 else 0) := by
      omega
    have e2 : ((setAt (cSet v) d i).filter
          (fun q : CRow => optStrEq q.cabin (some cab)
            && q.survived == some false)).length
          - (if (v == some false) = true then 1 else 0)
        = (d.filter (fun q : CRow => optStrEq q.cabin (some cab)
            && q.survived == some false)).length
          - (if (r.survived == some false) = true then 1 else 0) := by
      omega
    simp only [hoth, e1, e2]

/-- C3, cabin component. -/
theorem cabinPreRate_setSurv (d : List CRow) (s : Bool) (i : Nat)
    (v : Option Bool) :
    cabinPreRate (setSurvC d i v) s i = cabinPreRate d s i := by
  unfold setSurvC
  cases hi : d[i]? with
  | none =>
    have hi2 : (setAt (cSet v) d i)[i]? = none := by
      rw [getElem?_setAt]
      simp [hi]
    rw [cabinPreRate_none _ _ _ hi2, cabinPreRate_none _ _ _ hi]
  | some r =>
    have hi2 : (setAt (cSet v) d i)[i]? = some (cSet v r) := by
      rw [getElem?_setAt]
      simp [hi]
    rw [cabinPreRate_some _ _ _ _ hi2, cabinPreRate_some _ _ _ _ hi]
    exact cabinPreRateRow_eq d s i v r hi

/-- The pre-fallback `FamilyRate` of a row over a grouped frame is
unchanged when its own `Survived` value is overwritten: the one-member
gate only counts `Family` labels, and the `others` selection excludes the
row by its own `PassengerId`. -/
theorem famPreRateRow_eq (rows : List Row) (s a : Bool) (i : Nat)
    (v : Option Bool) (r : Row) (hi : rows[i]? = some r) :
    famPreRateRow (setAt (rSet v) rows i) s a (rSet v r)
      = famPreRateRow rows s a r := by
  unfold famPreRateRow
  simp only [rSet_family, rSet_passengerId]
  have hcnt : ((setAt (rSet v) rows i).filter
      (fun q => famEq q.family r.family)).length
      = (rows.filter (fun q => famEq q.family r.family)).length :=
    filter_setAt_length (rSet v) (fun q => famEq q.family r.family)
      (fun x => rfl) rows i
  have hoth : (setAt (rSet v) rows i).filter
      (fun q => famEq q.family r.family && q.passengerId != r.passengerId)
      = rows.filter
        (fun q => famEq q.family r.family
          && q.passengerId != r.passengerId) := by
    refine filter_setAt_eq (rSet v)
      (fun q => famEq q.family r.family && q.passengerId != r.passengerId)
      (fun x => rfl) rows i ?_
    intro q hq
    rw [hi] at hq
    have hqr : r = q := Option.some.inj hq
    rw [← hqr]
    simp
  simp only [hcnt, hoth]

/-- C3, family rate component (over an already-grouped frame). -/
theorem famPreRate_setSurv (rows : List Row) (s a : Bool) (i : Nat)
    (v : Option Bool) :
    famPreRate (setSurvR rows i v) s a i = famPreRate rows s a i := by
  unfold setSurvR
  cases hi : rows[i]? with
  | none =>
    have hi2 : (setAt (rSet v) rows i)[i]? = none := by
      rw [getElem?_setAt]
      simp [hi]
    rw [famPreRate_none _ _ _ _ hi2, famPreRate_none _ _ _ _ hi]
  | some r =>
    have hi2 : (setAt (rSet v) rows i)[i]? = some (rSet v r) := by
      rw [getElem?_setAt]
      simp [hi]
    rw [famPreRate_some _ _ _ _ _ hi2, famPreRate_some _ _ _ _ _ hi]
    exact famPreRateRow_eq rows s a i v r hi

/-!
### Changing a `Survived` value commutes with the whole grouping engine

`_fill_family_ids` never reads the `Survived` column, so overwriting one
row's `Survived` value commutes with every step of the grouping.  The
transform on states is `fun st => ⟨setAt (rSet v) st.rows i, st.families⟩`.
-/

@[simp] theorem FState_mk_rows (rows : List Row) (fams : List Family) :
    (FState.mk rows fams).rows = rows := rfl

@[simp] theorem FState_mk_families (rows : List Row) (fams : List Family) :
    (FState.mk rows fams).families = fams := rfl

theorem findFamily_rSet (fams : List Family) (v : Option Bool) (r : Row) :
    findFamily fams (rSet v r) = findFamily fams r := rfl

theorem assignStep_setSurv (i : Nat) (v : Option Bool) (rows : List Row)
    (fams : List Family) (j : Nat) :
    assignStep ⟨setAt (rSet v) rows i, fams⟩ j
      = ⟨setAt (rSet v) (assignStep ⟨rows, fams⟩ j).rows i,
          (assignStep ⟨rows, fams⟩ j).families⟩ := by
  by_cases hj : j = i
  · subst hj
    cases hr : rows[j]? with
    | none =>
      have h1 : (⟨setAt (rSet v) rows j, fams⟩ : FState).rows[j]? = none := by
        show (setAt (rSet v) rows j)[j]? = none
        rw [getElem?_setAt]
        simp [hr]
      rw [assignStep_none ⟨setAt (rSet v) rows j, fams⟩ j h1,
        assignStep_none ⟨rows, fams⟩ j hr]
    | some r =>
      have h1 : (⟨setAt (rSet v) rows j, fams⟩ : FState).rows[j]?
          = some (rSet v r) := by
        show (setAt (rSet v) rows j)[j]? = _
        rw [getElem?_setAt]
        simp [hr]
      rw [assignStep_some ⟨setAt (rSet v) rows j, fams⟩ j (rSet v r) h1,
        assignStep_some ⟨rows, fams⟩ j r hr]
      simp only [FState_mk_rows, FState_mk_families, rSet_sibsp, rSet_parch]
      by_cases hg : (r.sibsp == 0 && r.parch == 0) = true
      · rw [if_pos hg, if_pos hg]
      · rw [if_neg hg, if_neg hg]
        show (⟨(setAt (rSet v) rows j).set j
            (rSet v {r with family := some (findFamily fams r).1}),
          incSizeById (findFamily fams r).2 (findFamily fams r).1 1⟩ : FState)
          = ⟨setAt (rSet v)
              (rows.set j {r with family := some (findFamily fams r).1}) j,
            incSizeById (findFamily fams r).2 (findFamily fams r).1 1⟩
        rw [set_setAt_self, setAt_set_self]
  · cases hr : rows[j]? with
    | none =>
      have h1 : (⟨setAt (rSet v) rows i, fams⟩ : FState).rows[j]? = none := by
        show (setAt (rSet v) rows i)[j]? = none
        rw [getElem?_setAt]
        simp [hj, hr]
      rw [assignStep_none ⟨setAt (rSet v) rows i, fams⟩ j h1,
        assignStep_none ⟨rows, fams⟩ j hr]
    | some r =>
      have h1 : (⟨setAt (rSet v) rows i, fams⟩ : FState).rows[j]?
          = some r := by
        show (setAt (rSet v) rows i)[j]? = some r
        rw [getElem?_setAt]
        simp [hj, hr]
      rw [assignStep_some ⟨setAt (rSet v) rows i, fams⟩ j r h1,
        assignStep_some ⟨rows, fams⟩ j r hr]
      simp only [FState_mk_rows, FState_mk_families]
      by_cases hg : (r.sibsp == 0 && r.parch == 0) = true
      · rw [if_pos hg, if_pos hg]
      · rw [if_neg hg, if_neg hg]
        rw [setAt_set_ne _ _ _ _ _ hj]

theorem foldl_comm_T {σ : Type} (T : σ → σ) (step : σ → Nat → σ)
    (h : ∀ s j, step (T s) j = T (step s j)) (l : List Nat) (s : σ) :
    l.foldl step (T s) = T (l.foldl step s) := by
  induction l generalizing s with
  | nil => rfl
  | cons a l ih =>
    show l.foldl step (step (T s) a) = _
    rw [h s a]
    exact ih (step s a)

theorem siblingMerge_setSurv (i : Nat) (v : Option Bool) (rows : List Row)
    (fams : List Family) (pid pclass : Nat) (emb : String)
    (sn : Option String) :
    siblingMerge ⟨setAt (rSet v) rows i, fams⟩ pid pclass emb sn
      = Except.map (fun q : FState => ⟨setAt (rSet v) q.rows i, q.families⟩)
          (siblingMerge ⟨rows, fams⟩ pid pclass emb sn) := by
  have hhead := filter_setAt_head_map (rSet v)
    (fun q : Row => q.passengerId == pid)
    (fun q : Row => (q.sibsp, q.sex)) (fun x => rfl) (fun x => rfl) rows i
  cases hh : (rows.filter (fun q => q.passengerId == pid)).head? with
  | none =>
    rw [hh] at hhead
    have hh2 : ((setAt (rSet v) rows i).filter
        (fun q => q.passengerId == pid)).head? = none :=
      Option.map_eq_none'.mp (hhead.trans (Option.map_none' _))
    rw [siblingMerge_none ⟨setAt (rSet v) rows i, fams⟩ pid pclass emb sn hh2,
      siblingMerge_none ⟨rows, fams⟩ pid pclass emb sn hh]
    rfl
  | some rp =>
    rw [hh] at hhead
    obtain ⟨rp', hh2, hge⟩ :=
      Option.map_eq_some'.mp (hhead.trans (Option.map_some' _ _))
    injection hge with e1 e2
    rw [siblingMerge_some ⟨setAt (rSet v) rows i, fams⟩ pid pclass emb sn rp'
      hh2, siblingMerge_some ⟨rows, fams⟩ pid pclass emb sn rp hh]
    rw [e1, e2]
    simp only [FState_mk_rows, FState_mk_families]
    by_cases h1 : (rp.sibsp == 0) = true
    · rw [if_pos h1, if_pos h1]
      rfl
    · rw [if_neg h1, if_neg h1]
      by_cases h2 : (!pyEq rp.sex (.int 1)) = true
      · rw [if_pos h2, if_pos h2]
        rfl
      · rw [if_neg h2, if_neg h2]
        have hlen : ((setAt (rSet v) rows i).filter (fun r =>
            optStrEq r.secondaryLastname sn && pyEq r.sex (.str "female") &&
            r.pclass == pclass && r.embarked == emb &&
            r.passengerId != pid)).length
            = (rows.filter (fun r =>
              optStrEq r.secondaryLastname sn && pyEq r.sex (.str "female") &&
              r.pclass == pclass && r.embarked == emb &&
              r.passengerId != pid)).length :=
          filter_setAt_length (rSet v) (fun r =>
            optStrEq r.secondaryLastname sn && pyEq r.sex (.str "female") &&
            r.pclass == pclass && r.embarked == emb &&
            r.passengerId != pid) (fun x => rfl) rows i
        rw [hlen]
        by_cases h3 : 0 < (rows.filter (fun r =>
            optStrEq r.secondaryLastname sn && pyEq r.sex (.str "female") &&
            r.pclass == pclass && r.embarked == emb &&
            r.passengerId != pid)).length
        · rw [if_pos h3, if_pos h3]
          rfl
        · rw [if_neg h3, if_neg h3]
          rfl

theorem sizeGate_setSurv (i : Nat) (v : Option Bool) (rows : List Row)
    (fams : List Family) (f pid pclass : Nat) (emb : String)
    (sn : Option String) :
    sizeGate ⟨setAt (rSet v) rows i, fams⟩ f pid pclass emb sn
      = Except.map (fun q : FState => ⟨setAt (rSet v) q.rows i, q.families⟩)
          (sizeGate ⟨rows, fams⟩ f pid pclass emb sn) := by
  cases hf : fams[f]? with
  | none =>
    rw [sizeGate_none ⟨setAt (rSet v) rows i, fams⟩ f pid pclass emb sn hf,
      sizeGate_none ⟨rows, fams⟩ f pid pclass emb sn hf]
    rfl
  | some famF =>
    rw [sizeGate_some ⟨setAt (rSet v) rows i, fams⟩ f pid pclass emb sn famF
      hf, sizeGate_some ⟨rows, fams⟩ f pid pclass emb sn famF hf]
    by_cases hz : (famF.size == 0) = true
    · rw [if_pos hz, if_pos hz]
      rfl
    · rw [if_neg hz, if_neg hz]
      exact siblingMerge_setSurv i v rows fams pid pclass emb sn

theorem secondaryAbsorb_setSurv (i : Nat) (v : Option Bool)
    (rows : List Row) (fams : List Family) (f fid : Nat)
    (sn : Option String) :
    secondaryAbsorb ⟨setAt (rSet v) rows i, fams⟩ f fid sn
      = ⟨setAt (rSet v) (secondaryAbsorb ⟨rows, fams⟩ f fid sn).rows i,
          (secondaryAbsorb ⟨rows, fams⟩ f fid sn).families⟩ := by
  cases hg : (fams.filter (fun g => sndLastEq g.lastname sn)).head? with
  | none =>
    rw [secondaryAbsorb_none ⟨setAt (rSet v) rows i, fams⟩ f fid sn hg,
      secondaryAbsorb_none ⟨rows, fams⟩ f fid sn hg]
  | some g =>
    rw [secondaryAbsorb_some ⟨setAt (rSet v) rows i, fams⟩ f fid sn g hg,
      secondaryAbsorb_some ⟨rows, fams⟩ f fid sn g hg]
    simp only [FState_mk_rows, FState_mk_families]
    have hlen : (rowsInFamily (setAt (rSet v) rows i) fid).length
        = (rowsInFamily rows fid).length :=
      filter_setAt_length (rSet v) (fun r => r.family == some fid)
        (fun x => rfl) rows i
    have hmap : (setAt (rSet v) rows i).map (fun r =>
        if r.family == some fid then {r with family := some g.id} else r)
        = setAt (rSet v) (rows.map (fun r =>
            if r.family == some fid then {r with family := some g.id}
            else r)) i := by
      refine map_setAt (rSet v) (rSet v) (fun r =>
        if r.family == some fid then {r with family := some g.id} else r)
        ?_ rows i
      intro x
      simp only [rSet_family]
      by_cases hc : (x.family == some fid) = true
      · rw [if_pos hc, if_pos hc]
        rfl
      · rw [if_neg hc, if_neg hc]
    rw [hlen, hmap]

theorem mergeBody_setSurv (i : Nat) (v : Option Bool) (rows : List Row)
    (fams : List Family) (f fid : Nat) (r0' r0 : Row)
    (e1 : r0'.passengerId = r0.passengerId) (e2 : r0'.pclass = r0.pclass)
    (e3 : r0'.embarked = r0.embarked)
    (e4 : r0'.secondaryLastname = r0.secondaryLastname) :
    mergeBody ⟨setAt (rSet v) rows i, fams⟩ f fid r0'
      = Except.map (fun q : FState => ⟨setAt (rSet v) q.rows i, q.families⟩)
          (mergeBody ⟨rows, fams⟩ f fid r0) := by
  rw [mergeBody_eq, mergeBody_eq, e1, e2, e3, e4]
  rw [secondaryAbsorb_setSurv i v rows fams f fid r0.secondaryLastname]
  exact sizeGate_setSurv i v
    (secondaryAbsorb ⟨rows, fams⟩ f fid r0.secondaryLastname).rows
    (secondaryAbsorb ⟨rows, fams⟩ f fid r0.secondaryLastname).families
    f r0.passengerId r0.pclass r0.embarked r0.secondaryLastname

theorem mergeStep_setSurv (i : Nat) (v : Option Bool) (rows : List Row)
    (fams : List Family) (f : Nat) :
    mergeStep ⟨setAt (rSet v) rows i, fams⟩ f
      = Except.map (fun q : FState => ⟨setAt (rSet v) q.rows i, q.families⟩)
          (mergeStep ⟨rows, fams⟩ f) := by
  cases hf : fams[f]? with
  | none =>
    rw [mergeStep_none ⟨setAt (rSet v) rows i, fams⟩ f hf,
      mergeStep_none ⟨rows, fams⟩ f hf]
    rfl
  | some fam0 =>
    by_cases hsz : (fam0.size != 1) = true
    · rw [mergeStep_skip ⟨setAt (rSet v) rows i, fams⟩ f fam0 hf hsz,
        mergeStep_skip ⟨rows, fams⟩ f fam0 hf hsz]
      rfl
    · have hsz1 : fam0.size = 1 := by
        have h2 := hsz
        simp only [bne_iff_ne, ne_eq, Bool.not_eq_true] at h2
        simpa using h2
      have hhead := filter_setAt_head_map (rSet v)
        (fun q : Row => q.family == some fam0.id)
        (fun q : Row => (q.passengerId, q.pclass, q.embarked,
          q.secondaryLastname)) (fun x => rfl) (fun x => rfl) rows i
      have hcast : ((rowsInFamily (setAt (rSet v) rows i)
          fam0.id).head?).map (fun q : Row => (q.passengerId, q.pclass,
            q.embarked, q.secondaryLastname))
          = ((rowsInFamily rows fam0.id).head?).map
            (fun q : Row => (q.passengerId, q.pclass, q.embarked,
              q.secondaryLastname)) := hhead
      cases h0 : (rowsInFamily rows fam0.id).head? with
      | none =>
        rw [h0] at hcast
        have h0' : (rowsInFamily (setAt (rSet v) rows i) fam0.id).head?
            = none :=
          Option.map_eq_none'.mp (hcast.trans (Option.map_none' _))
        rw [mergeStep_noRow ⟨setAt (rSet v) rows i, fams⟩ f fam0 hf hsz1 h0',
          mergeStep_noRow ⟨rows, fams⟩ f fam0 hf hsz1 h0]
        rfl
      | some r0 =>
        rw [h0] at hcast
        obtain ⟨r0', h0', hge⟩ :=
          Option.map_eq_some'.mp (hcast.trans (Option.map_some' _ _))
        injection hge with ee1 hge1
        injection hge1 with ee2 hge2
        injection hge2 with ee3 ee4
        rw [mergeStep_found ⟨setAt (rSet v) rows i, fams⟩ f fam0 r0' hf hsz1
          h0', mergeStep_found ⟨rows, fams⟩ f fam0 r0 hf hsz1 h0]
        exact mergeBody_setSurv i v rows fams f fam0.id r0' r0 ee1 ee2 ee3 ee4

theorem foldlM_comm_T (T : FState → FState)
    (step : FState → Nat → Except String FState)
    (h : ∀ s j, step (T s) j = Except.map T (step s j)) (l : List Nat)
    (s : FState) :
    l.foldlM step (T s) = Except.map T (l.foldlM step s) := by
  induction l generalizing s with
  | nil =>
    rw [List.foldlM_nil, List.foldlM_nil]
    rfl
  | cons a l ih =>
    rw [List.foldlM_cons, List.foldlM_cons, h s a]
    cases hs : step s a with
    | error e => rfl
    | ok m => exact ih m

theorem assignPass_setSurv (i : Nat) (v : Option Bool) (st : FState) :
    assignPass ⟨setAt (rSet v) st.rows i, st.families⟩
      = ⟨setAt (rSet v) (assignPass st).rows i, (assignPass st).families⟩ := by
  unfold assignPass
  simp only [FState_mk_rows, length_setAt]
  exact foldl_comm_T
    (fun q : FState => ⟨setAt (rSet v) q.rows i, q.families⟩) assignStep
    (fun s j => assignStep_setSurv i v s.rows s.families j)
    (List.range st.rows.length) st

theorem mergePass_setSurv (i : Nat) (v : Option Bool) (st : FState) :
    mergePass ⟨setAt (rSet v) st.rows i, st.families⟩
      = Except.map (fun q : FState => ⟨setAt (rSet v) q.rows i, q.families⟩)
          (mergePass st) := by
  unfold mergePass
  simp only [FState_mk_families]
  exact foldlM_comm_T
    (fun q : FState => ⟨setAt (rSet v) q.rows i, q.families⟩) mergeStep
    (fun s j => mergeStep_setSurv i v s.rows s.families j)
    (List.range st.families.length) st

theorem fareStep_setSurv (i : Nat) (v : Option Bool) (rows : List Row)
    (n j : Nat) :
    fareStep (setAt (rSet v) rows i, n) j
      = (setAt (rSet v) (fareStep (rows, n) j).1 i,
          (fareStep (rows, n) j).2) := by
  by_cases hj : j = i
  · subst hj
    cases hr : rows[j]? with
    | none =>
      have h1 : ((setAt (rSet v) rows j, n) : List Row × Nat).1[j]?
          = none := by
        show (setAt (rSet v) rows j)[j]? = none
        rw [getElem?_setAt]
        simp [hr]
      rw [fareStep_none (setAt (rSet v) rows j, n) j h1,
        fareStep_none (rows, n) j hr]
    | some r =>
      have h1 : ((setAt (rSet v) rows j, n) : List Row × Nat).1[j]?
          = some (rSet v r) := by
        show (setAt (rSet v) rows j)[j]? = _
        rw [getElem?_setAt]
        simp [hr]
      rw [fareStep_some (setAt (rSet v) rows j, n) j (rSet v r) h1,
        fareStep_some (rows, n) j r hr]
      simp only [rSet_family, rSet_fare, rSet_lastname]
      by_cases hf : r.family.isSome = true
      · rw [if_pos hf, if_pos hf]
      · rw [if_neg hf, if_neg hf]
        have hmap : (setAt (rSet v) rows j).map (fun x =>
            if fareEq x.fare r.fare && x.lastname == r.lastname then
              {x with family := some n} else x)
            = setAt (rSet v) (rows.map (fun x =>
                if fareEq x.fare r.fare && x.lastname == r.lastname then
                  {x with family := some n} else x)) j := by
          refine map_setAt (rSet v) (rSet v) _ ?_ rows j
          intro x
          simp only [rSet_fare, rSet_lastname]
          by_cases hc : (fareEq x.fare r.fare && x.lastname == r.lastname)
              = true
          · rw [if_pos hc, if_pos hc]
            rfl
          · rw [if_neg hc, if_neg hc]
        show ((setAt (rSet v) rows j).map (fun x =>
            if fareEq x.fare r.fare && x.lastname == r.lastname then
              {x with family := some n} else x), n + 1) = _
        rw [hmap]
  · cases hr : rows[j]? with
    | none =>
      have h1 : ((setAt (rSet v) rows i, n) : List Row × Nat).1[j]?
          = none := by
        show (setAt (rSet v) rows i)[j]? = none
        rw [getElem?_setAt]
        simp [hj, hr]
      rw [fareStep_none (setAt (rSet v) rows i, n) j h1,
        fareStep_none (rows, n) j hr]
    | some r =>
      have h1 : ((setAt (rSet v) rows i, n) : List Row × Nat).1[j]?
          = some r := by
        show (setAt (rSet v) rows i)[j]? = some r
        rw [getElem?_setAt]
        simp [hj, hr]
      rw [fareStep_some (setAt (rSet v) rows i, n) j r h1,
        fareStep_some (rows, n) j r hr]
      by_cases hf : r.family.isSome = true
      · rw [if_pos hf, if_pos hf]
      · rw [if_neg hf, if_neg hf]
        have hmap : (setAt (rSet v) rows i).map (fun x =>
            if fareEq x.fare r.fare && x.lastname == r.lastname then
              {x with family := some n} else x)
            = setAt (rSet v) (rows.map (fun x =>
                if fareEq x.fare r.fare && x.lastname == r.lastname then
                  {x with family := some n} else x)) i := by
          refine map_setAt (rSet v) (rSet v) _ ?_ rows i
          intro x
          simp only [rSet_fare, rSet_lastname]
          by_cases hc : (fareEq x.fare r.fare && x.lastname == r.lastname)
              = true
          · rw [if_pos hc, if_pos hc]
            rfl
          · rw [if_neg hc, if_neg hc]
        show ((setAt (rSet v) rows i).map (fun x =>
            if fareEq x.fare r.fare && x.lastname == r.lastname then
              {x with family := some n} else x), n + 1) = _
        rw [hmap]

theorem farePass_setSurv (i : Nat) (v : Option Bool) (l : List Nat)
    (rows : List Row) (n : Nat) :
    l.foldl fareStep (setAt (rSet v) rows i, n)
      = (setAt (rSet v) (l.foldl fareStep (rows, n)).1 i,
          (l.foldl fareStep (rows, n)).2) := by
  induction l generalizing rows n with
  | nil => rfl
  | cons a l ih =>
    show l.foldl fareStep (fareStep (setAt (rSet v) rows i, n) a) = _
    rw [fareStep_setSurv i v rows n a,
      ih (fareStep (rows, n) a).1 (fareStep (rows, n) a).2]
    rfl

theorem initState_setSurv (i : Nat) (v : Option Bool) (d : List Row) :
    initState (setAt (rSet v) d i)
      = ⟨setAt (rSet v) (initState d).rows i, (initState d).families⟩ := by
  unfold initState
  simp only [FState_mk_rows, FState_mk_families]
  have hmap : (setAt (rSet v) d i).map (fun r => {r with family := none})
      = setAt (rSet v) (d.map (fun r => {r with family := none})) i := by
    refine map_setAt (rSet v) (rSet v) _ ?_ d i
    intro x
    rfl
  rw [hmap]

/-- Overwriting one row's `Survived` value commutes with the whole of
`_fill_family_ids`: the grouping engine never reads the `Survived`
column, so the result is the same grouped state with the same single
`Survived` cell overwritten (and the same family frame), in both modes,
including the error outcomes. -/
theorem fillFamilyIds_setSurv (d : List Row) (b : Bool) (i : Nat)
    (v : Option Bool) :
    fillFamilyIds (setSurvR d i v) b
      = Except.map (fun q : FState => ⟨setAt (rSet v) q.rows i, q.families⟩)
          (fillFamilyIds d b) := by
  have hift : ∀ (X Y : Except String FState),
      (if (true : Bool) = true then X else Y) = X := fun X Y => if_pos rfl
  have hiff : ∀ (X Y : Except String FState),
      (if (false : Bool) = true then X else Y) = Y :=
    fun X Y => if_neg (fun h => Bool.noConfusion h)
  cases b with
  | false =>
    unfold fillFamilyIds setSurvR
    rw [hiff, hiff, initState_setSurv i v d,
      assignPass_setSurv i v (initState d)]
    exact mergePass_setSurv i v (assignPass (initState d))
  | true =>
    unfold fillFamilyIds setSurvR
    rw [hift, hift, initState_setSurv i v d]
    simp only [FState_mk_rows]
    rw [length_setAt,
      farePass_setSurv i v (List.range (initState d).rows.length)
        (initState d).rows 0]
    rfl

/-- Ticket fixture for the leave-one-out witness: two passengers sharing a
ticket. -/
def c3T : List TRow := [⟨1, "A1", 1, some true⟩, ⟨2, "A1", 1, some false⟩]

/-- Cabin fixture for the leave-one-out witness: two passengers sharing a
cabin. -/
def c3C : List CRow := [⟨1, some "C1", 1, some true⟩,
  ⟨2, some "C1", 1, some false⟩]

/-- Passenger fixture for the leave-one-out witness: two relatives named
`A`. -/
def c3D : List Row := [mkRow 1 "A" none 1, mkRow 2 "A" none 1]

/-- The grouped state `fillFamilyIds c3D false` produces: both rows in
family `0`, one two-member group. -/
def c3St : FState :=
  ⟨[{mkRow 1 "A" none 1 with family := some 0},
    {mkRow 2 "A" none 1 with family := some 0}],
   [⟨1, "S", "A", 0, 2⟩]⟩

/-- **C3.**  Leave-one-out purity: in every mode of `TicketCounter`
(`simplified` × `fill_if_not_any_survived`), of `CabinCounter`
(`simplified`) and of `FamilyPredictor`, given unique `PassengerId`
values, overwriting a row's own `Survived` value never changes that row's
own pre-fallback rate.  For the family engine the overwrite is applied to
the raw frame: grouping commutes with it, and the rate over the grouped
frame is unchanged. -/
theorem c3_leave_one_out_purity :
    (∀ (d : List TRow) (s a : Bool) (i : Nat) (v : Option Bool),
      uniquePidsT d →
      ticketPreRate (setSurvT d i v) s a i = ticketPreRate d s a i) ∧
    (∀ (d : List CRow) (s : Bool) (i : Nat) (v : Option Bool),
      uniquePidsC d →
      cabinPreRate (setSurvC d i v) s i = cabinPreRate d s i) ∧
    (∀ (d : List Row) (b : Bool) (st : FState) (s a : Bool) (i : Nat)
        (v : Option Bool),
      uniquePidsR d → fillFamilyIds d b = Except.ok st →
      fillFamilyIds (setSurvR d i v) b
          = Except.ok ⟨setSurvR st.rows i v, st.families⟩ ∧
        famPreRate (setSurvR st.rows i v) s a i
          = famPreRate st.rows s a i) := by
  refine ⟨?_, ?_, ?_⟩
  · intro d s a i v _
    exact ticketPreRate_setSurv d s a i v
  · intro d s i v _
    exact cabinPreRate_setSurv d s i v
  · intro d b st s a i v _ hok
    constructor
    · have h := fillFamilyIds_setSurv d b i v
      rw [hok] at h
      exact h
    · exact famPreRate_setSurv st.rows s a i v

/-- Witness for C3 at concrete inputs: two-row ticket, cabin and family
frames with distinct `PassengerId`s, overwriting row 0's outcome. -/
theorem c3_leave_one_out_purity_witness :
    ticketPreRate (setSurvT c3T 0 (some false)) false false 0
        = ticketPreRate c3T false false 0 ∧
    cabinPreRate (setSurvC c3C 0 (some false)) false 0
        = cabinPreRate c3C false 0 ∧
    (fillFamilyIds (setSurvR c3D 0 (some false)) false
        = Except.ok ⟨setSurvR c3St.rows 0 (some false), c3St.families⟩ ∧
      famPreRate (setSurvR c3St.rows 0 (some false)) false false 0
        = famPreRate c3St.rows false false 0) :=
  ⟨c3_leave_one_out_purity.1 c3T false false 0 (some false) (by unfold uniquePidsT; decide),
   c3_leave_one_out_purity.2.1 c3C false 0 (some false) (by unfold uniquePidsC; decide),
   c3_leave_one_out_purity.2.2 c3D false c3St false false 0 (some false)
     (by unfold uniquePidsR; decide) (by rfl)⟩

end Titanic
